import Mathlib

set_option maxRecDepth 40000

/-!
Verification development for the irctest dashboard report pipeline
(`irctest/dashboard/format.py`).  The Python source is shallowly embedded:
machine-level details that do not exist in Python (it uses unbounded ints)
are kept as `Nat` with explicit `% 2 ^ 32` where the md5 algorithm requires
32-bit wrap-around; fallible code (Python `assert`, `KeyError`, `ValueError`,
`TypeError`) is modelled with `Except String`.
-/

namespace Irctest

/-- `NETLIFY_CHAR_BLACKLIST` from format.py line 25: characters not allowed in
output filenames. -/
def NETLIFY_CHAR_BLACKLIST : List Char :=
  ['"', ':', '<', '>', '|', '*', '?', '\r', '\n', '#']

/-- The dataclass `CaseResult` (format.py lines 29-49).  Optional fields keep
Python `None` as `none`. -/
structure CaseResult where
  module_name : String
  class_name : String
  test_name : String
  job : String
  success : Bool
  skipped : Bool
  system_out : Option String
  details : Option String := none
  type : Option String := none
  message : Option String := none
deriving Repr, DecidableEq

/-- Decidable equality of embedded fallible computations, for concrete
evaluation. -/
instance {ε α : Type} [DecidableEq ε] [DecidableEq α] :
    DecidableEq (Except ε α) := fun x y =>
  match x, y with
  | .ok a, .ok b =>
    if h : a = b then .isTrue (by rw [h])
    else .isFalse (by intro hc; cases hc; exact h rfl)
  | .error a, .error b =>
    if h : a = b then .isTrue (by rw [h])
    else .isFalse (by intro hc; cases hc; exact h rfl)
  | .ok _, .error _ => .isFalse (by intro hc; cases hc)
  | .error _, .ok _ => .isFalse (by intro hc; cases hc)

/-! ### md5 digest (`hashlib.md5`), urlsafe base64 (`base64.urlsafe_b64encode`)
and UTF-8 encoding (`str.encode`), needed by `md5sum` (format.py line 56). -/

/-- Reduce to a 32-bit word, as md5 arithmetic is mod 2^32. -/
def u32 (n : Nat) : Nat := n % 4294967296

/-- Bitwise complement within 32 bits. -/
def not32 (n : Nat) : Nat := Nat.xor n 4294967295

/-- Left-rotation of a 32-bit word. -/
def rotl32 (x n : Nat) : Nat :=
  u32 (Nat.lor (Nat.shiftLeft x n) (Nat.shiftRight x (32 - n)))

/-- The md5 per-round shift amounts. -/
def md5Shift : List Nat :=
  [7, 12, 17, 22, 7, 12, 17, 22, 7, 12, 17, 22, 7, 12, 17, 22,
   5, 9, 14, 20, 5, 9, 14, 20, 5, 9, 14, 20, 5, 9, 14, 20,
   4, 11, 16, 23, 4, 11, 16, 23, 4, 11, 16, 23, 4, 11, 16, 23,
   6, 10, 15, 21, 6, 10, 15, 21, 6, 10, 15, 21, 6, 10, 15, 21]

/-- The md5 sine-derived constants: entry i is the integer part of
abs(sin(i+1)) * 2^32. -/
def md5K : List Nat :=
  [3614090360, 3905402710, 606105819, 3250441966, 4118548399, 1200080426,
   2821735955, 4249261313, 1770035416, 2336552879, 4294925233, 2304563134,
   1804603682, 4254626195, 2792965006, 1236535329, 4129170786, 3225465664,
   643717713, 3921069994, 3593408605, 38016083, 3634488961, 3889429448,
   568446438, 3275163606, 4107603335, 1163531501, 2850285829, 4243563512,
   1735328473, 2368359562, 4294588738, 2272392833, 1839030562, 4259657740,
   2763975236, 1272893353, 4139469664, 3200236656, 681279174, 3936430074,
   3572445317, 76029189, 3654602809, 3873151461, 530742520, 3299628645,
   4096336452, 1126891415, 2878612391, 4237533241, 1700485571, 2399980690,
   4293915773, 2240044497, 1873313359, 4264355552, 2734768916, 1309151649,
   4149444226, 3174756917, 718787259, 3951481745]

/-- Split a byte list into 64-byte blocks (fuel-based structural recursion so
that the kernel can evaluate it; the fuel is the list length, which bounds the
number of blocks). -/
def md5BlocksAux : Nat → List Nat → List (List Nat)
  | 0, _ => []
  | _ + 1, [] => []
  | n + 1, l => (l.take 64) :: md5BlocksAux n (l.drop 64)

/-- Split a byte list into 64-byte blocks. -/
def md5Blocks (l : List Nat) : List (List Nat) :=
  md5BlocksAux l.length l

/-- Decode a 64-byte block into sixteen little-endian 32-bit words. -/
def md5Words (block : List Nat) : List Nat :=
  (List.range 16).map fun i =>
    block.getD (4 * i) 0 + 256 * block.getD (4 * i + 1) 0 +
      65536 * block.getD (4 * i + 2) 0 + 16777216 * block.getD (4 * i + 3) 0

/-- One of the 64 md5 operations, acting on the running state (a, b, c, d). -/
def md5Op (M : List Nat) (st : Nat × Nat × Nat × Nat) (i : Nat) :
    Nat × Nat × Nat × Nat :=
  let (a, b, c, d) := st
  let (f, g) :=
    if i < 16 then
      (Nat.lor (Nat.land b c) (Nat.land (not32 b) d), i)
    else if i < 32 then
      (Nat.lor (Nat.land d b) (Nat.land (not32 d) c), (5 * i + 1) % 16)
    else if i < 48 then
      (Nat.xor b (Nat.xor c d), (3 * i + 5) % 16)
    else
      (Nat.xor c (Nat.lor b (not32 d)), (7 * i) % 16)
  let rotated :=
    u32 (b + rotl32 (u32 (a + f + md5K.getD i 0 + M.getD g 0)) (md5Shift.getD i 0))
  (d, rotated, b, c)

/-- Process one 64-byte block, updating the four md5 state words. -/
def md5Block (st : Nat × Nat × Nat × Nat) (block : List Nat) :
    Nat × Nat × Nat × Nat :=
  let (a0, b0, c0, d0) := st
  let (a, b, c, d) := (List.range 64).foldl (md5Op (md5Words block)) (a0, b0, c0, d0)
  (u32 (a0 + a), u32 (b0 + b), u32 (c0 + c), u32 (d0 + d))

/-- Little-endian byte expansion of a 32-bit word. -/
def le4 (n : Nat) : List Nat :=
  [n % 256, n / 256 % 256, n / 65536 % 256, n / 16777216 % 256]

/-- md5 padding: a 0x80 byte, zeros to 56 mod 64, then the bit length as a
little-endian 64-bit integer. -/
def md5Pad (msg : List Nat) : List Nat :=
  let bitLen := 8 * msg.length
  let zeros := (64 + 56 - (msg.length + 1) % 64) % 64
  msg ++ [128] ++ List.replicate zeros 0 ++
    (List.range 8).map fun i => bitLen / 256 ^ i % 256

/-- The md5 digest of a byte sequence, as 16 bytes. -/
def md5Digest (msg : List Nat) : List Nat :=
  let (a, b, c, d) :=
    (md5Blocks (md5Pad msg)).foldl md5Block
      (1732584193, 4023233417, 2562383102, 271733878)
  le4 a ++ le4 b ++ le4 c ++ le4 d

/-- The urlsafe base64 alphabet (RFC 4648 with - and _). -/
def b64Alphabet : List Char :=
  "ABCDEFGHIJKLMNOPQRSTUVWXYZabcdefghijklmnopqrstuvwxyz0123456789-_".data

/-- Padded urlsafe base64 encoding of a byte list
(`base64.urlsafe_b64encode`). -/
def b64Encode : List Nat → List Char
  | [] => []
  | [b1] =>
    [b64Alphabet.getD (b1 / 4) 'A', b64Alphabet.getD (b1 % 4 * 16) 'A', '=', '=']
  | [b1, b2] =>
    [b64Alphabet.getD (b1 / 4) 'A',
     b64Alphabet.getD (b1 % 4 * 16 + b2 / 16) 'A',
     b64Alphabet.getD (b2 % 16 * 4) 'A', '=']
  | b1 :: b2 :: b3 :: rest =>
    b64Alphabet.getD (b1 / 4) 'A' ::
      b64Alphabet.getD (b1 % 4 * 16 + b2 / 16) 'A' ::
      b64Alphabet.getD (b2 % 16 * 4 + b3 / 64) 'A' ::
      b64Alphabet.getD (b3 % 64) 'A' :: b64Encode rest

/-- UTF-8 encoding of one character (Python `str.encode`). -/
def utf8Char (c : Char) : List Nat :=
  let n := c.toNat
  if n < 128 then [n]
  else if n < 2048 then [192 + n / 64, 128 + n % 64]
  else if n < 65536 then [224 + n / 4096, 128 + n / 64 % 64, 128 + n % 64]
  else [240 + n / 262144, 128 + n / 4096 % 64, 128 + n / 64 % 64, 128 + n % 64]

/-- UTF-8 encoding of a string as a byte list. -/
def utf8Encode (s : String) : List Nat :=
  s.data.foldr (fun c acc => utf8Char c ++ acc) []

/-- `md5sum` (format.py lines 56-57): urlsafe base64 of the md5 digest of the
UTF-8 encoded text. -/
def md5sum (text : String) : String :=
  String.mk (b64Encode (md5Digest (utf8Encode text)))

/-! ### `CaseResult.output_filename` (format.py lines 42-49). -/

/-- ASCII approximation of the regex class backslash-w (word character):
letters, digits and underscore.  (Python treats some further Unicode
characters as word characters; the test names of this repository are ASCII.) -/
def isWordChar (c : Char) : Bool := c.isAlpha || c.isDigit || c = '_'

/-- Semantics of `re.match` for the anchored, unanchored-at-the-end pattern
used in `output_filename`: a lazy nonempty word-character group, a literal
opening bracket, a greedy nonempty any-but-newline group, and a closing
bracket.  The lazy group stops at the first opening bracket (all characters
before it must be word characters); the greedy group extends to the last
closing bracket reachable without crossing a newline.  Returns the
function-name and params captures. -/
def shortenMatch (s : String) : Option (String × String) :=
  let cs := s.data
  match cs.findIdx? (· = '[') with
  | none => none
  | some k =>
    if k = 0 then none
    else if (cs.take k).all isWordChar then
      let rest := cs.drop (k + 1)
      ((List.range rest.length).reverse.findSome? fun m =>
        if 1 ≤ m ∧ rest.getD m ' ' = ']' ∧ (rest.take m).all (· ≠ '\n') then
          some (String.mk (cs.take k), String.mk (rest.take m))
        else none)
    else none

/-- Python truthiness of an optional string: `None` and the empty string are
falsy. -/
def truthy : Option String → Bool
  | none => false
  | some s => s ≠ ""

/-- `CaseResult.output_filename` (format.py lines 42-49).  `none` models the
`assert m` failure (file name too long but has no parameter). -/
def outputFilename (r : CaseResult) : Option String :=
  let tn := r.test_name
  let shortened :=
    if tn.length > 50 ∨ tn.data.any (· ∈ NETLIFY_CHAR_BLACKLIST) then
      match shortenMatch tn with
      | some (fn, params) => some (fn ++ "[" ++ md5sum params ++ "]")
      | none => none
    else some tn
  shortened.map fun t =>
    r.job ++ "_" ++ r.module_name ++ "." ++ r.class_name ++ "." ++ t ++ ".txt"

/-! ### Generic helpers: `group_by` (format.py lines 60-65), Python `sorted`,
Python `str.rstrip`, and an explicit error-propagating map used to model
Python loops over fallible bodies. -/

/-- Keys of a Python dict in insertion order: first occurrence wins. -/
def pyDedupFirst {κ : Type} [DecidableEq κ] (l : List κ) : List κ :=
  l.foldl (fun acc k => if k ∈ acc then acc else acc ++ [k]) []

/-- One step of `group_by`: append the value to its key group, creating the
group at the end on first sight (dict insertion order). -/
def addGroup {α κ : Type} [DecidableEq κ] (groups : List (κ × List α)) (k : κ)
    (v : α) : List (κ × List α) :=
  if groups.any (fun g => decide (g.1 = k)) then
    groups.map fun g => if g.1 = k then (g.1, g.2 ++ [v]) else g
  else groups ++ [(k, [v])]

/-- `group_by` (format.py lines 60-65): a dict from key to the values sharing
that key, modelled as an association list in insertion order. -/
def group_by {α κ : Type} [DecidableEq κ] (l : List α) (key : α → κ) :
    List (κ × List α) :=
  l.foldl (fun gs v => addGroup gs (key v) v) []

/-- Error-propagating map: a Python loop whose body may raise, collecting one
output per input. -/
def mapE {α β : Type} (f : α → Except String β) :
    List α → Except String (List β)
  | [] => .ok []
  | x :: xs =>
    match f x with
    | .error e => .error e
    | .ok y =>
      match mapE f xs with
      | .error e => .error e
      | .ok ys => .ok (y :: ys)

/-- Error-propagating fold: a Python loop whose body may raise, threading
state. -/
def foldE {σ α : Type} (f : σ → α → Except String σ) (init : σ) :
    List α → Except String σ
  | [] => .ok init
  | x :: xs =>
    match f init x with
    | .error e => .error e
    | .ok st => foldE f st xs

/-- Strict lexicographic comparison of character lists by code point, the
order Python uses to compare strings. -/
def charsLt : List Char → List Char → Bool
  | [], [] => false
  | [], _ :: _ => true
  | _ :: _, [] => false
  | c :: cs, d :: ds =>
    if c.toNat < d.toNat then true
    else if c = d then charsLt cs ds
    else false

/-- Python string comparison, strict. -/
def pyLt (a b : String) : Bool := charsLt a.data b.data

/-- Python string comparison, non-strict. -/
def pyLe (a b : String) : Bool := pyLt a b || a == b

/-- Python `sorted` on strings (lexicographic on code points). -/
def sortedStrings (l : List String) : List String :=
  l.insertionSort fun a b => pyLe a b = true

/-- Python `sorted(d.items())` for string keys: dict keys are distinct, so the
comparison never reaches the values. -/
def sortByKey {β : Type} (items : List (String × β)) : List (String × β) :=
  items.insertionSort fun x y => pyLe x.1 y.1 = true

/-- Lexicographic order on string pairs, as Python compares tuples. -/
def keyLe (a b : String × String) : Prop :=
  pyLt a.1 b.1 = true ∨ (a.1 = b.1 ∧ pyLe a.2 b.2 = true)

instance : DecidableRel keyLe := fun a b => by unfold keyLe; infer_instance

/-- Python `sorted(d.items())` for (string, string) keys. -/
def sortByKey2 {β : Type} (items : List ((String × String) × β)) :
    List ((String × String) × β) :=
  items.insertionSort fun x y => keyLe x.1 y.1

/-- ASCII whitespace stripped by Python `str.rstrip()`. -/
def pySpace (c : Char) : Bool :=
  c == ' ' || c == '\t' || c == '\n' || c == '\r' || c == '\x0b' || c == '\x0c'

/-- Python `str.rstrip()` (no argument): drop trailing whitespace. -/
def pyRstrip (s : String) : String :=
  String.mk (s.data.reverse.dropWhile pySpace).reverse

/-- Python `s.startswith(pre)` (over the characters, so that the kernel can
evaluate it). -/
def pyStartsWith (s pre : String) : Bool :=
  pre.data.isPrefixOf s.data

/-! ### Job classification (format.py lines 295-313). -/

/-- Substring occurrence over character lists: the needle occurs as a prefix
at some position. -/
def containsChars (s sub : List Char) : Bool :=
  match s with
  | [] => sub.isEmpty
  | _ :: t => sub.isPrefixOf s || containsChars t sub

/-- Python `sub in s` substring test. -/
def containsSub (s sub : String) : Bool := containsChars s.data sub.data

/-- Python `s.endswith(suffix)`. -/
def endsWith (s suffix : String) : Bool :=
  suffix.data.reverse.isPrefixOf s.data.reverse

/-- `job.endswith(("-atheme", "-anope", "-dlk"))` (format.py line 306). -/
def servicesSuffix (job : String) : Bool :=
  endsWith job "-atheme" || endsWith job "-anope" || endsWith job "-dlk"

/-- `is_client` (format.py lines 297-300): some result of this exact job lies
in a module whose name contains the client-suite marker.  Note that the
source quantifies over all results, skipped ones included. -/
def isClientJob (results : List CaseResult) (job : String) : Bool :=
  results.any fun r => containsSub r.module_name "client_tests" && r.job == job

/-- `is_server` (format.py lines 301-304). -/
def isServerJob (results : List CaseResult) (job : String) : Bool :=
  results.any fun r => containsSub r.module_name "server_tests" && r.job == job

/-- The classification of one job (format.py lines 305-313), with the three
`assert` statements modelled as errors. -/
def jobCategory (results : List CaseResult) (job : String) :
    Except String String :=
  let is_client := isClientJob results job
  let is_server := isServerJob results job
  if is_client = is_server then
    .error "AssertionError: ambiguous job category"
  else if servicesSuffix job then
    if is_server then .ok "server-with-services"
    else .error "AssertionError: a services job must be a server job"
  else if is_server then .ok "server"
  else if is_client then .ok "client"
  else .error "AssertionError: unreachable"

/-! ### The record-file path pattern (format.py lines 102-107).

`re.match` against
`(.*/)?pytest[ -]results[ _](?P<name>.*)[ _][(]?(stable|release|devel|devel_release)[)]?/pytest.xml(.gz)?`
is embedded as a deterministic backtracking matcher specialised to this
pattern: the optional leading group tries its greedy dot-star longest first
(so candidate start offsets run over slash positions from right to left, then
offset zero), and the name capture is greedy with backtracking.  Dot never
matches a newline; the trailing `(.gz)?` group can never affect success and
so does not appear. -/

/-- Drop a literal prefix, or fail. -/
def matchFrom (l lit : List Char) : Option (List Char) :=
  if lit.isPrefixOf l then some (l.drop lit.length) else none

/-- Match `/pytest.xml` where the dot is the regex any-but-newline. -/
def matchPytestXml (l : List Char) : Bool :=
  match matchFrom l "/pytest".data with
  | some (c :: rest) => c ≠ '\n' && "xml".data.isPrefixOf rest
  | _ => false

/-- Match `[)]?/pytest.xml`. -/
def matchCloseParen (l : List Char) : Bool :=
  (match l with
   | ')' :: r => matchPytestXml r
   | _ => false) || matchPytestXml l

/-- The channel-tag alternatives, in the order the pattern lists them. -/
def chanTags : List (List Char) :=
  ["stable".data, "release".data, "devel".data, "devel_release".data]

/-- Match `(stable|release|devel|devel_release)[)]?/pytest.xml`. -/
def matchTag (l : List Char) : Bool :=
  chanTags.any fun t => t.isPrefixOf l && matchCloseParen (l.drop t.length)

/-- Match `[(]?(stable|...)[)]?/pytest.xml`. -/
def matchOpenParen (l : List Char) : Bool :=
  (match l with
   | '(' :: r => matchTag r
   | _ => false) || matchTag l

/-- Match `[ _][(]?(stable|...)[)]?/pytest.xml`. -/
def matchSepChan (l : List Char) : Bool :=
  match l with
  | c :: r => (c == ' ' || c == '_') && matchOpenParen r
  | [] => false

/-- Match the literal `pytest[ -]results[ _]` and return the remainder. -/
def matchResultsLit (l : List Char) : Option (List Char) :=
  match matchFrom l "pytest".data with
  | some (c1 :: r1) =>
    if c1 == ' ' || c1 == '-' then
      match matchFrom r1 "results".data with
      | some (c2 :: r2) => if c2 == ' ' || c2 == '_' then some r2 else none
      | _ => none
    else none
  | _ => none

/-- Greedy match of `(?P<name>.*)[ _][(]?(...)[)]?/pytest.xml`: the longest
newline-free name prefix whose remainder matches wins. -/
def greedyName (l : List Char) : Option (List Char) :=
  (List.range (l.length + 1)).reverse.findSome? fun n =>
    if (l.take n).all (· ≠ '\n') && matchSepChan (l.drop n) then
      some (l.take n)
    else none

/-- Candidate offsets for the body after the optional `(.*/)?` group: slash
positions right to left (greedy, newline-free), then the start of the
string. -/
def startPositions (cs : List Char) : List Nat :=
  (((List.range cs.length).reverse.filter fun p =>
      cs.getD p ' ' == '/' && (cs.take p).all (· ≠ '\n')).map (· + 1)) ++ [0]

/-- The job name captured from a record file path, `none` when the path does
not match the pattern (format.py lines 102-107). -/
def jobOfPath (path : String) : Option String :=
  let cs := path.data
  (startPositions cs).findSome? fun i =>
    match matchResultsLit (cs.drop i) with
    | some rest => (greedyName rest).map String.mk
    | none => none

/-! ### Parsing one record file (`iter_job_results`, format.py lines 68-118). -/

/-- One XML child element of a case element: tag, text, attributes. -/
structure XmlChild where
  tag : String
  text : Option String
  attrib : List (String × String)
deriving Repr, DecidableEq

/-- One XML case element. -/
structure XmlCase where
  attrib : List (String × String)
  children : List XmlChild
deriving Repr, DecidableEq

/-- The mutable per-case state of the child loop (format.py lines 74-78). -/
structure LoopState where
  success : Bool
  skipped : Bool
  details : Option String
  system_out : Option String
  extra : List (String × String)
deriving Repr, DecidableEq

/-- Initial per-case state (format.py lines 74-78). -/
def initState : LoopState :=
  { success := true, skipped := false, details := none, system_out := none,
    extra := [] }

/-- One iteration of the child loop (format.py lines 79-99).  The duplicate
`system-out` branch asserts that the new text extends the previous text
stripped of trailing whitespace; a second `system-out` with no text raises
(Python calls `.startswith` on `None`). -/
def stepChild (st : LoopState) (child : XmlChild) : Except String LoopState :=
  if child.tag = "skipped" then
    .ok { success := true, skipped := true, details := none,
          system_out := st.system_out, extra := child.attrib }
  else if child.tag = "failure" ∨ child.tag = "error" then
    .ok { success := false, skipped := false, details := child.text,
          system_out := st.system_out, extra := child.attrib }
  else if child.tag = "system-out" then
    match st.system_out with
    | none => .ok { st with system_out := child.text }
    | some prev =>
      match child.text with
      | none => .error "AttributeError: NoneType has no attribute startswith"
      | some t =>
        if pyStartsWith t (pyRstrip prev) then .ok { st with system_out := some t }
        else .error "AssertionError: Duplicate system-out tag"
  else .error "AssertionError: unexpected child tag"

/-- `classname.rsplit(".", 1)` followed by unpacking into two names
(format.py line 101); a classname without a dot raises `ValueError`. -/
def rsplitLastDot (s : String) : Except String (String × String) :=
  let cs := s.data
  match cs.reverse.findIdx? (· == '.') with
  | none => .error "ValueError: not enough values to unpack"
  | some rIdx =>
    let i := cs.length - 1 - rIdx
    .ok (String.mk (cs.take i), String.mk (cs.drop (i + 1)))

/-- `CaseResult(..., **extra)` (format.py lines 108-118): the leftover
attributes may only supply the keyword arguments `type` and `message`; any
other key raises `TypeError`. -/
def extractExtra (attrib : List (String × String)) :
    Except String (Option String × Option String) :=
  if attrib.all (fun kv => decide (kv.1 = "type" ∨ kv.1 = "message")) then
    .ok (attrib.lookup "type", attrib.lookup "message")
  else .error "TypeError: unexpected keyword argument"

/-- Parsing of one case element (the body of the loop in `iter_job_results`,
format.py lines 70-118): `none` models `continue` for a case with no name
attribute. -/
def parseCase (path : String) (case_ : XmlCase) :
    Except String (Option CaseResult) :=
  match case_.attrib.lookup "name" with
  | none => .ok none
  | some name =>
    match foldE stepChild initState case_.children with
    | .error e => .error e
    | .ok st =>
      match case_.attrib.lookup "classname" with
      | none => .error "KeyError: classname"
      | some classname =>
        match rsplitLastDot classname with
        | .error e => .error e
        | .ok (module_name, class_name) =>
          match jobOfPath path with
          | none => .error "AssertionError: path does not match the pattern"
          | some jobName =>
            match extractExtra st.extra with
            | .error e => .error e
            | .ok (ty, msg) =>
              .ok (some { module_name := module_name, class_name := class_name,
                          test_name := name, job := jobName,
                          success := st.success, skipped := st.skipped,
                          system_out := st.system_out, details := st.details,
                          type := ty, message := msg })

/-- `iter_job_results` (format.py lines 68-118) over the case elements of the
single suite element. -/
def iterJobResults (path : String) (cases : List XmlCase) :
    Except String (List CaseResult) :=
  match mapE (parseCase path) cases with
  | .error e => .error e
  | .ok opts => .ok (opts.filterMap id)

/-! ### The test matrix (`build_test_table`, format.py lines 175-282). -/

/-- One rendered matrix cell: style class, text, optional artifact link,
optional tooltip. -/
structure Cell where
  cls : String
  text : String
  link : Option String
  title : Option String
deriving Repr, DecidableEq

/-- The cell for a job with no result for this test (format.py lines
242-245). -/
def deselectedCell : Cell :=
  { cls := "deselected", text := "d", link := none, title := none }

/-- The style class and the raw marker text of one cell (format.py lines
249-271): the skipped branch, then the success branch, then the failure
branch; an xfail overwrites the skipped style class. -/
def renderClsText (r : CaseResult) : String × Option String :=
  if r.skipped then
    if r.type = some "pytest.skip" then ("skipped", some "s")
    else if r.type = some "pytest.xfail" then ("expected-failure", some "X")
    else ("skipped", r.type)
  else if r.success then
    ("success", if truthy r.type then r.type else some ".")
  else
    ("failure", if truthy r.type then r.type else some "f")

/-- `text or "?"` (format.py lines 276 and 278). -/
def renderText (o : Option String) : String :=
  match o with
  | some t => if t = "" then "?" else t
  | none => "?"

/-- Rendering of one cell from its unique result (format.py lines 247-280):
a truthy captured output turns the text into a link to the output artifact
(which requires the artifact file name to be computable), a truthy message
becomes the tooltip. -/
def renderCell (r : CaseResult) : Except String Cell :=
  let clsText := renderClsText r
  let textStr := renderText clsText.2
  let title := if truthy r.message then r.message else none
  if truthy r.system_out then
    match outputFilename r with
    | some fn =>
      .ok { cls := clsText.1, text := textStr, link := some ("./" ++ fn),
            title := title }
    | none => .error "AssertionError: File name is too long but has no parameter."
  else .ok { cls := clsText.1, text := textStr, link := none, title := title }

/-- One row of the matrix: test name, anchor, one cell per job column. -/
structure Row where
  test_name : String
  anchor : String
  cells : List Cell
deriving Repr, DecidableEq

/-- One class group of the matrix, with its header data. -/
structure TableSection where
  module_name : String
  class_name : String
  qualified : String
  rows : List Row
deriving Repr, DecidableEq

/-- The whole matrix: the job columns (the header row repeated above every
class group) and the class groups in order. -/
structure Table where
  jobs : List String
  sections : List TableSection
deriving Repr, DecidableEq

/-- The cell of one (test, job) pair (format.py lines 238-280): a missing
group is deselected, a group of two or more results fails the single-element
unpacking with `ValueError`. -/
def cellForJob (byJob : List (String × List CaseResult)) (j : String) :
    Except String Cell :=
  match byJob.lookup j with
  | none => .ok deselectedCell
  | some [r] => renderCell r
  | some _ => .error "ValueError: expected exactly one result"

/-- One row of the matrix (format.py lines 223-280). -/
def buildRow (jobs : List String) (qualified : String)
    (t : String × List CaseResult) : Except String Row :=
  let anchor0 := qualified ++ "." ++ t.1
  let anchor := if anchor0.length ≥ 50 then md5sum anchor0 else anchor0
  let byJob := group_by t.2 (·.job)
  match mapE (cellForJob byJob) jobs with
  | .error e => .error e
  | .ok cells => .ok { test_name := t.1, anchor := anchor, cells := cells }

/-- One class group of the matrix (format.py lines 190-280). -/
def buildSection (jobs : List String) (multiple : Bool)
    (g : (String × String) × List CaseResult) : Except String TableSection :=
  let qualified := if multiple then g.1.1 ++ "." ++ g.1.2 else g.1.2
  let byTest := sortByKey (group_by g.2 (·.test_name))
  match mapE (buildRow jobs qualified) byTest with
  | .error e => .error e
  | .ok rows =>
    .ok { module_name := g.1.1, class_name := g.1.2, qualified := qualified,
          rows := rows }

/-- `build_test_table` (format.py lines 175-282). -/
def buildTestTable (jobs : List String) (results : List CaseResult) :
    Except String Table :=
  let multiple := (pyDedupFirst (results.map (·.module_name))).length > 1
  let groups := sortByKey2 (group_by results fun r => (r.module_name, r.class_name))
  match mapE (buildSection jobs multiple) groups with
  | .error e => .error e
  | .ok sections => .ok { jobs := jobs, sections := sections }

/-! ### Pages (`write_html_pages`, format.py lines 285-344) and output
artifacts (`write_test_outputs`, lines 347-354). -/

/-- One generated page: its index entry type, title, file name and matrix. -/
structure Page where
  ptype : String
  title : String
  fileName : String
  table : Table
deriving Repr, DecidableEq

/-- `sorted({r.job for r in results})` (format.py line 293 and line 135). -/
def jobsOf (results : List CaseResult) : List String :=
  sortedStrings (pyDedupFirst (results.map (·.job)))

/-- The `job_categories` dict (format.py lines 295-313), keyed in sorted job
order. -/
def jobCategories (results : List CaseResult) :
    Except String (List (String × String)) :=
  mapE (fun j =>
    match jobCategory results j with
    | .error e => .error e
    | .ok c => .ok (j, c)) (jobsOf results)

/-- `job_categories[job]`; the default is never reached because every job of
every result is a key. -/
def catOf (cats : List (String × String)) (j : String) : String :=
  (cats.lookup j).getD "KeyError"

/-- One module page (format.py lines 317-330, with `build_module_html`
delegating its matrix to `build_test_table`). -/
def buildModulePage (results : List CaseResult)
    (cats : List (String × String)) (jobs : List String)
    (m : String × List CaseResult) : Except String Page :=
  let mcats := pyDedupFirst
    ((results.filter fun r => r.module_name == m.1 && !r.skipped).map
      fun r => catOf cats r.job)
  let module_jobs := jobs.filter fun j => mcats.contains (catOf cats j)
  match buildTestTable module_jobs m.2 with
  | .error e => .error e
  | .ok table =>
    .ok { ptype := "module", title := m.1, fileName := m.1 ++ ".xhtml",
          table := table }

/-- One job page (format.py lines 332-342, with `build_job_html` recomputing
the column set from the filtered results, line 135). -/
def buildJobPage (results : List CaseResult) (job : String) :
    Except String Page :=
  let job_results := results.filter fun r =>
    r.job == job || pyStartsWith r.job (job ++ "-")
  let jjobs := jobsOf job_results
  match buildTestTable jjobs job_results with
  | .error e => .error e
  | .ok table =>
    .ok { ptype := "job", title := job, fileName := job ++ ".xhtml",
          table := table }

/-- `write_html_pages` (format.py lines 285-344): the module pages in sorted
module order, then the job pages, for the category `server` first and
`client` second, in each case in `job_categories` insertion (= sorted job)
order. -/
def writeHtmlPages (results : List CaseResult) : Except String (List Page) :=
  match jobCategories results with
  | .error e => .error e
  | .ok cats =>
    let jobs := jobsOf results
    let modItems := sortByKey (group_by results (·.module_name))
    match mapE (buildModulePage results cats jobs) modItems with
    | .error e => .error e
    | .ok modPages =>
      let jobList := (["server", "client"].map fun category =>
        cats.filter fun jc => jc.2 == category).flatten
      match mapE (fun jc => buildJobPage results jc.1) jobList with
      | .error e => .error e
      | .ok jobPages => .ok (modPages ++ jobPages)

/-- `write_test_outputs` (format.py lines 347-354): one (file name, content)
pair per result whose captured output is not `None`; only `None` is skipped,
the empty string is written. -/
def writeTestOutputs (results : List CaseResult) :
    Except String (List (String × String)) :=
  mapE (fun r =>
    match outputFilename r with
    | some fn => .ok (fn, r.system_out.getD "")
    | none => .error "AssertionError: File name is too long but has no parameter.")
    (results.filter fun r => r.system_out.isSome)

/-! ### Definitions modelled from the spec, for comparison with the source. -/

/-- Modelled from the spec (claim C1): the claimed classifier that consults
only the non-skipped results of the job when testing for client-suite and
server-suite module membership.  This is the comparand for the refinement
check against `jobCategory`, which the source computes over all results. -/
def isClientJobClaim (results : List CaseResult) (job : String) : Bool :=
  results.any fun r =>
    containsSub r.module_name "client_tests" && r.job == job && !r.skipped

/-- Modelled from the spec (claim C1): server-suite analogue of
`isClientJobClaim`. -/
def isServerJobClaim (results : List CaseResult) (job : String) : Bool :=
  results.any fun r =>
    containsSub r.module_name "server_tests" && r.job == job && !r.skipped

/-- Modelled from the spec (claim C1): the claimed classification, identical
to `jobCategory` except that the two membership scans ignore skipped
results. -/
def jobCategoryClaim (results : List CaseResult) (job : String) :
    Except String String :=
  let is_client := isClientJobClaim results job
  let is_server := isServerJobClaim results job
  if is_client = is_server then
    .error "AssertionError: ambiguous job category"
  else if servicesSuffix job then
    if is_server then .ok "server-with-services"
    else .error "AssertionError: a services job must be a server job"
  else if is_server then .ok "server"
  else if is_client then .ok "client"
  else .error "AssertionError: unreachable"

/-! ### Concrete inputs used by counterexamples and witnesses. -/

/-- A result record with the optional fields defaulted. -/
def mkR (m c t j : String) (succ skip : Bool) (so : Option String) :
    CaseResult :=
  { module_name := m, class_name := c, test_name := t, job := j,
    success := succ, skipped := skip, system_out := so }

/-- A job whose only client-suite results are skipped while its server-suite
result is not. -/
def resultsSkippedClient : List CaseResult :=
  [mkR "irctest.client_tests.a" "C" "t1" "j" true true none,
   mkR "irctest.server_tests.b" "C" "t2" "j" true false none]

/-- A 55-character test name whose bracketed segment is followed by a stray
character. -/
def strayTailResult : CaseResult :=
  mkR "m" "C" (String.mk (List.replicate 51 'a') ++ "[x]z") "j" true false none

/-- The claim C2 scenario: an identifier, then 60 arbitrary characters in
brackets. -/
def longParamResult : CaseResult :=
  mkR "m" "C" ("test_long_one[" ++ String.mk (List.replicate 60 'b') ++ "]")
    "j" true false none

/-- A record file path used throughout the concrete scenarios. -/
def P0 : String := "pytest-results_foo-server_(stable)/pytest.xml"

/-- A case element with fixed name and classname attributes. -/
def mkCase (children : List XmlChild) : XmlCase :=
  { attrib := [("classname", "m.C"), ("name", "t")], children := children }

/-- A system-out child element. -/
def sysOutChild (text : Option String) : XmlChild :=
  { tag := "system-out", text := text, attrib := [] }

/-- The loop state after system-out children only. -/
def soState (t : Option String) : LoopState :=
  { success := true, skipped := false, details := none, system_out := t,
    extra := [] }

/-- The single server-suite passing case of the claim C6 scenario. -/
def serverCase : XmlCase :=
  { attrib := [("classname", "irctest.server_tests.x.T"), ("name", "test_a")],
    children := [] }

/-- The parse of `serverCase` out of a `foo-server` record. -/
def serverResult : CaseResult :=
  mkR "irctest.server_tests.x" "T" "test_a" "foo-server" true false none

/-- A services-suffixed job with a server-suite result (claim C4). -/
def servicesOnlyResults : List CaseResult :=
  [mkR "irctest.server_tests.a" "C" "t" "x-anope" true false none]

/-- A skipped result in the expected-failure (xfail) variant. -/
def xfailResult : CaseResult :=
  { mkR "m" "C" "t" "j" true true none with type := some "pytest.xfail" }

/-- The cell the xfail variant renders to. -/
def xfailCell : Cell :=
  { cls := "expected-failure", text := "X", link := none, title := none }

/-- A one-result, one-job input used by concrete pipeline witnesses. -/
def srvResults : List CaseResult :=
  [mkR "irctest.server_tests.a" "C" "t" "sjob" true false none]

/-- The classification of `srvResults`. -/
def srvCats : List (String × String) := [("sjob", "server")]

/-- The matrix both pages of `srvResults` render. -/
def srvTable : Table :=
  { jobs := ["sjob"],
    sections := [{ module_name := "irctest.server_tests.a", class_name := "C",
                   qualified := "C",
                   rows := [{ test_name := "t", anchor := "C.t",
                              cells := [{ cls := "success", text := ".",
                                          link := none, title := none }] }] }] }

/-- The pages generated from `srvResults`. -/
def srvPages : List Page :=
  [{ ptype := "module", title := "irctest.server_tests.a",
     fileName := "irctest.server_tests.a.xhtml", table := srvTable },
   { ptype := "job", title := "sjob", fileName := "sjob.xhtml",
     table := srvTable }]

/-- A module whose name carries neither suite marker, fed by one client job
and one server job (claim C7). -/
def mixedModuleResults : List CaseResult :=
  [mkR "irctest.client_tests.a" "C" "t1" "cjob" true false none,
   mkR "irctest.extra.m" "C" "t1" "cjob" true false none,
   mkR "irctest.server_tests.b" "C" "t1" "sjob" true false none,
   mkR "irctest.extra.m" "C" "t1" "sjob" true false none]

/-! ## Helper lemmas -/

/-- Unfolding of a successful `shortenMatch`: the test name decomposes as the
word-character identifier, the bracketed parameters, and a (possibly empty)
tail after the closing bracket. -/
theorem shortenMatch_eq_some {s fn ps : String}
    (h : shortenMatch s = some (fn, ps)) :
    (∃ suffix, s.data = fn.data ++ '[' :: ps.data ++ ']' :: suffix) ∧
    fn.data.all isWordChar = true ∧ fn.data ≠ [] := by
  simp only [shortenMatch] at h
  cases hf : s.data.findIdx? (· = '[') with
  | none => rw [hf] at h; exact absurd h (by simp)
  | some k =>
    rw [hf] at h
    dsimp only at h
    have hk0 : ¬ k = 0 := by
      intro hk; rw [if_pos hk] at h; exact absurd h (by simp)
    rw [if_neg hk0] at h
    by_cases hw : (s.data.take k).all isWordChar = true
    · rw [if_pos hw] at h
      obtain ⟨m, hm, hsome⟩ := List.exists_of_findSome?_eq_some h
      by_cases hc : 1 ≤ m ∧ (s.data.drop (k + 1)).getD m ' ' = ']' ∧
          ((s.data.drop (k + 1)).take m).all (· ≠ '\n') = true
      · rw [if_pos hc] at hsome
        have hfn : fn = String.mk (s.data.take k) := by
          cases hsome; rfl
        have hps : ps = String.mk ((s.data.drop (k + 1)).take m) := by
          cases hsome; rfl
        have hkl : k < s.data.length := by
          have := List.findIdx?_of_eq_some hf
          cases hq : s.data[k]? with
          | none => rw [hq] at this; exact absurd this (by simp)
          | some a =>
            rcases List.getElem?_eq_some.mp hq with ⟨hlt, _⟩
            exact hlt
        have hbr : s.data[k] = '[' := by
          have := List.findIdx?_of_eq_some hf
          cases hq : s.data[k]? with
          | none => rw [hq] at this; exact absurd this (by simp)
          | some a =>
            rw [hq] at this
            rcases List.getElem?_eq_some.mp hq with ⟨hlt, hv⟩
            rw [hv]; exact of_decide_eq_true this
        have hml : m < (s.data.drop (k + 1)).length := by
          have := List.mem_reverse.mp hm
          exact List.mem_range.mp this
        have hmb : (s.data.drop (k + 1))[m] = ']' := by
          have := hc.2.1
          rwa [List.getD_eq_getElem _ _ hml] at this
        refine ⟨⟨(s.data.drop (k + 1)).drop (m + 1), ?_⟩, ?_, ?_⟩
        · rw [hfn, hps]
          dsimp only
          simp only [List.append_assoc, List.cons_append]
          calc s.data = s.data.take k ++ s.data.drop k :=
                (List.take_append_drop k s.data).symm
            _ = s.data.take k ++ ('[' :: s.data.drop (k + 1)) := by
                rw [List.drop_eq_getElem_cons hkl, hbr]
            _ = s.data.take k ++ ('[' :: ((s.data.drop (k + 1)).take m ++
                  (s.data.drop (k + 1)).drop m)) := by
                rw [List.take_append_drop]
            _ = s.data.take k ++ ('[' :: ((s.data.drop (k + 1)).take m ++
                  (']' :: (s.data.drop (k + 1)).drop (m + 1)))) := by
                rw [List.drop_eq_getElem_cons hml, hmb]
        · rw [hfn]; exact hw
        · rw [hfn]
          show ¬ s.data.take k = []
          intro hnil
          have : (s.data.take k).length = 0 := by rw [hnil]; rfl
          rw [List.length_take] at this
          omega
      · rw [if_neg hc] at hsome; exact absurd hsome (by simp)
    · rw [if_neg hw] at h; exact absurd h (by simp)

/-- `foldE` splits over list append. -/
theorem foldE_append {σ α : Type} (f : σ → α → Except String σ) (init : σ)
    (l₁ l₂ : List α) :
    foldE f init (l₁ ++ l₂) =
      match foldE f init l₁ with
      | .error e => .error e
      | .ok st => foldE f st l₂ := by
  induction l₁ generalizing init with
  | nil => rfl
  | cons x xs ih =>
    show foldE f init (x :: (xs ++ l₂)) = _
    simp only [foldE]
    cases hfx : f init x with
    | error e => rfl
    | ok st => exact ih st

/-- An outcome-classification child always steps successfully and leaves the
captured output untouched. -/
theorem stepChild_outcome_ok (st : LoopState) (x : XmlChild)
    (hx : x.tag = "skipped" ∨ x.tag = "failure" ∨ x.tag = "error") :
    ∃ st', stepChild st x = .ok st' ∧ st'.system_out = st.system_out := by
  rcases hx with hx | hx | hx
  · refine ⟨{ success := true, skipped := true, details := none,
              system_out := st.system_out, extra := x.attrib }, ?_, rfl⟩
    simp [stepChild, hx]
  · refine ⟨{ success := false, skipped := false, details := x.text,
              system_out := st.system_out, extra := x.attrib }, ?_, rfl⟩
    simp [stepChild, hx]
  · refine ⟨{ success := false, skipped := false, details := x.text,
              system_out := st.system_out, extra := x.attrib }, ?_, rfl⟩
    simp [stepChild, hx]

/-- The step of an outcome-classification child depends on the incoming state
only through the captured output. -/
theorem stepChild_outcome_congr (st₁ st₂ : LoopState) (x : XmlChild)
    (hx : x.tag = "skipped" ∨ x.tag = "failure" ∨ x.tag = "error")
    (hso : st₁.system_out = st₂.system_out) :
    stepChild st₁ x = stepChild st₂ x := by
  rcases hx with hx | hx | hx <;> simp [stepChild, hx, hso]

/-- Folding a list of outcome-classification children succeeds and leaves the
captured output untouched. -/
theorem foldE_outcomes (cs : List XmlChild)
    (h : ∀ x ∈ cs, x.tag = "skipped" ∨ x.tag = "failure" ∨ x.tag = "error")
    (st : LoopState) :
    ∃ st', foldE stepChild st cs = .ok st' ∧ st'.system_out = st.system_out := by
  induction cs generalizing st with
  | nil => exact ⟨st, rfl, rfl⟩
  | cons x xs ih =>
    obtain ⟨st1, hst1, hso1⟩ :=
      stepChild_outcome_ok st x (h x (List.mem_cons_self x xs))
    obtain ⟨st2, hst2, hso2⟩ :=
      ih (fun y hy => h y (List.mem_cons_of_mem x hy)) st1
    refine ⟨st2, ?_, hso2.trans hso1⟩
    simp only [foldE, hst1]
    exact hst2

/-- A named case parsed out of a record whose path does not match the
pattern always errors (whatever else is wrong with it). -/
theorem parseCase_named_error (path : String) (c : XmlCase)
    (hn : (c.attrib.lookup "name").isSome = true)
    (hj : jobOfPath path = none) :
    ∃ e, parseCase path c = .error e := by
  unfold parseCase
  cases hname : c.attrib.lookup "name" with
  | none => rw [hname] at hn; exact absurd hn (by decide)
  | some name =>
    dsimp only
    cases hf : foldE stepChild initState c.children with
    | error e => exact ⟨e, rfl⟩
    | ok st =>
      dsimp only
      cases hcn : c.attrib.lookup "classname" with
      | none => exact ⟨_, rfl⟩
      | some classname =>
        dsimp only
        cases hr : rsplitLastDot classname with
        | error e => exact ⟨e, rfl⟩
        | ok p =>
          obtain ⟨mn, cn⟩ := p
          rw [hj]
          exact ⟨_, rfl⟩

/-- A successfully parsed case carries the job name captured from the
path. -/
theorem parseCase_ok_job (path : String) (c : XmlCase) (r : CaseResult)
    (h : parseCase path c = .ok (some r)) : jobOfPath path = some r.job := by
  unfold parseCase at h
  cases hname : c.attrib.lookup "name" with
  | none => rw [hname] at h; simp at h
  | some name =>
    rw [hname] at h
    dsimp only at h
    cases hf : foldE stepChild initState c.children with
    | error e => rw [hf] at h; cases h
    | ok st =>
      rw [hf] at h
      dsimp only at h
      cases hcn : c.attrib.lookup "classname" with
      | none => rw [hcn] at h; cases h
      | some classname =>
        rw [hcn] at h
        dsimp only at h
        cases hr : rsplitLastDot classname with
        | error e => rw [hr] at h; cases h
        | ok p =>
          rw [hr] at h
          obtain ⟨mn, cn⟩ := p
          dsimp only at h
          cases hj : jobOfPath path with
          | none => rw [hj] at h; cases h
          | some jn =>
            rw [hj] at h
            dsimp only at h
            cases he : extractExtra st.extra with
            | error e => rw [he] at h; cases h
            | ok q =>
              rw [he] at h
              obtain ⟨ty, msg⟩ := q
              dsimp only at h
              cases h
              rfl

/-- A record with a named case and a non-matching path aborts parsing. -/
theorem iterJobResults_mismatch_error (path : String) (cases_ : List XmlCase)
    (h : ∃ c ∈ cases_, (c.attrib.lookup "name").isSome = true)
    (hj : jobOfPath path = none) :
    (iterJobResults path cases_).isOk = false := by
  induction cases_ with
  | nil => obtain ⟨c, hc, _⟩ := h; cases hc
  | cons c rest ih =>
    obtain ⟨c', hc', hn'⟩ := h
    rcases List.mem_cons.mp hc' with rfl | hmem
    · obtain ⟨e, he⟩ := parseCase_named_error path c' hn' hj
      simp only [iterJobResults, mapE, he]
      rfl
    · cases hp : parseCase path c with
      | error e => simp only [iterJobResults, mapE, hp]; rfl
      | ok o =>
        have hrest := ih ⟨c', hmem, hn'⟩
        cases hm : mapE (parseCase path) rest with
        | error e => simp only [iterJobResults, mapE, hp, hm]; rfl
        | ok ys =>
          exfalso
          have : (iterJobResults path rest).isOk = true := by
            simp only [iterJobResults, hm]
            rfl
          rw [hrest] at this
          cases this

/-- Every result yielded from a record carries the job name captured from
the record's path. -/
theorem iterJobResults_ok_job (path : String) (cases_ : List XmlCase)
    (results : List CaseResult)
    (h : iterJobResults path cases_ = .ok results) :
    ∀ r ∈ results, jobOfPath path = some r.job := by
  induction cases_ generalizing results with
  | nil =>
    unfold iterJobResults mapE at h
    cases h
    intro r hr
    cases hr
  | cons c rest ih =>
    unfold iterJobResults at h
    cases hp : parseCase path c with
    | error e => rw [show mapE (parseCase path) (c :: rest) = .error e by
        simp only [mapE, hp]] at h; cases h
    | ok o =>
      cases hm : mapE (parseCase path) rest with
      | error e =>
        rw [show mapE (parseCase path) (c :: rest) = .error e by
          simp only [mapE, hp, hm]] at h
        cases h
      | ok ys =>
        rw [show mapE (parseCase path) (c :: rest) = .ok (o :: ys) by
          simp only [mapE, hp, hm]] at h
        have hrest : iterJobResults path rest = .ok (ys.filterMap id) := by
          simp only [iterJobResults, hm]
        cases h
        intro r hr
        cases o with
        | none =>
          exact ih (ys.filterMap id) hrest r (by simpa using hr)
        | some r0 =>
          rcases (show r = r0 ∨ some r ∈ ys by simpa using hr) with rfl | hmem
          · exact parseCase_ok_job path c r hp
          · exact ih (ys.filterMap id) hrest r (by simpa using hmem)

/-- A successful `mapE` is a pointwise successful map. -/
theorem mapE_forall2 {α β : Type} {f : α → Except String β} :
    ∀ {l : List α} {ys : List β}, mapE f l = .ok ys →
      List.Forall₂ (fun x y => f x = .ok y) l ys := by
  intro l
  induction l with
  | nil =>
    intro ys h
    unfold mapE at h
    cases h
    exact .nil
  | cons x xs ih =>
    intro ys h
    unfold mapE at h
    cases hf : f x with
    | error e => rw [hf] at h; cases h
    | ok y =>
      rw [hf] at h
      cases hm : mapE f xs with
      | error e => rw [hm] at h; cases h
      | ok ys' =>
        rw [hm] at h
        cases h
        exact .cons hf (ih hm)

/-- Right-to-left membership inversion of a pointwise relation. -/
theorem forall2_mem_right {α β : Type} {R : α → β → Prop} :
    ∀ {l : List α} {ys : List β}, List.Forall₂ R l ys → ∀ y ∈ ys,
      ∃ x ∈ l, R x y := by
  intro l ys h
  induction h with
  | nil => intro y hy; cases hy
  | cons hR _ ih =>
    intro y hy
    rcases List.mem_cons.mp hy with rfl | hy'
    · exact ⟨_, List.mem_cons_self _ _, hR⟩
    · obtain ⟨x, hx, hxy⟩ := ih y hy'
      exact ⟨x, List.mem_cons_of_mem _ hx, hxy⟩

/-- A pointwise relation restricts to filtered lists when the two filter
predicates agree across the relation. -/
theorem forall2_filter {α β : Type} {R : α → β → Prop} {p : α → Bool}
    {q : β → Bool} :
    ∀ {l : List α} {ys : List β}, List.Forall₂ R l ys →
      (∀ x y, R x y → p x = q y) →
      List.Forall₂ R (l.filter p) (ys.filter q) := by
  intro l ys h hpq
  induction h with
  | nil => exact .nil
  | cons hR hF ih =>
    rename_i a b l' ys'
    simp only [List.filter_cons]
    rw [← hpq a b hR]
    cases hp : p a
    · exact ih
    · exact .cons hR ih

/-- Mapping both sides of a pointwise relation to equal values gives equal
maps. -/
theorem forall2_map_eq {α β γ : Type} {R : α → β → Prop} {f : β → γ}
    {g : α → γ} :
    ∀ {l : List α} {ys : List β}, List.Forall₂ R l ys →
      (∀ x y, R x y → f y = g x) → ys.map f = l.map g := by
  intro l ys h hfg
  induction h with
  | nil => rfl
  | cons hR _ ih => simp only [List.map_cons, hfg _ _ hR, ih]

/-- Membership in the dict-ordered dedup fold. -/
theorem pyDedupFoldl_mem {κ : Type} [DecidableEq κ] (l : List κ)
    (acc : List κ) (a : κ) :
    (a ∈ l.foldl (fun acc k => if k ∈ acc then acc else acc ++ [k]) acc) ↔
      a ∈ acc ∨ a ∈ l := by
  induction l generalizing acc with
  | nil => simp
  | cons x xs ih =>
    simp only [List.foldl_cons]
    rw [ih]
    by_cases hx : x ∈ acc
    · rw [if_pos hx]
      simp only [List.mem_cons]
      constructor
      · tauto
      · rintro (h | rfl | h)
        · exact .inl h
        · exact .inl hx
        · exact .inr h
    · rw [if_neg hx]
      simp only [List.mem_append, List.mem_cons, List.not_mem_nil, or_false]
      tauto

/-- The dict-ordered dedup fold keeps the accumulator duplicate-free. -/
theorem pyDedupFoldl_nodup {κ : Type} [DecidableEq κ] (l : List κ)
    (acc : List κ) (hacc : acc.Nodup) :
    (l.foldl (fun acc k => if k ∈ acc then acc else acc ++ [k]) acc).Nodup := by
  induction l generalizing acc with
  | nil => exact hacc
  | cons x xs ih =>
    simp only [List.foldl_cons]
    by_cases hx : x ∈ acc
    · rw [if_pos hx]; exact ih acc hacc
    · rw [if_neg hx]
      exact ih (acc ++ [x]) (by simp [List.nodup_append, hacc, hx])

/-- Membership in `pyDedupFirst`. -/
theorem pyDedupFirst_mem {κ : Type} [DecidableEq κ] (l : List κ) (a : κ) :
    a ∈ pyDedupFirst l ↔ a ∈ l := by
  unfold pyDedupFirst
  rw [pyDedupFoldl_mem]
  simp

/-- `pyDedupFirst` is duplicate-free. -/
theorem pyDedupFirst_nodup {κ : Type} [DecidableEq κ] (l : List κ) :
    (pyDedupFirst l).Nodup :=
  pyDedupFoldl_nodup l [] List.nodup_nil

/-- `pyDedupFirst` of permuted lists are permutations. -/
theorem pyDedupFirst_perm {κ : Type} [DecidableEq κ] {l l' : List κ}
    (h : l.Perm l') : (pyDedupFirst l).Perm (pyDedupFirst l') := by
  rw [List.perm_ext_iff_of_nodup (pyDedupFirst_nodup l) (pyDedupFirst_nodup l')]
  intro a
  rw [pyDedupFirst_mem, pyDedupFirst_mem]
  exact h.mem_iff

/-- The keys of `group_by`, in order: the deduplicated mapped keys. -/
theorem group_by_keys {α κ : Type} [DecidableEq κ] (l : List α) (key : α → κ) :
    (group_by l key).map Prod.fst = pyDedupFirst (l.map key) := by
  suffices haux : ∀ (l : List α) (gs : List (κ × List α)),
      ((l.foldl (fun gs v => addGroup gs (key v) v) gs).map Prod.fst) =
        (l.map key).foldl (fun acc k => if k ∈ acc then acc else acc ++ [k])
          (gs.map Prod.fst) by
    exact haux l []
  intro l
  induction l with
  | nil => intro gs; rfl
  | cons x xs ih =>
    intro gs
    simp only [List.foldl_cons, List.map_cons]
    rw [ih]
    congr 1
    unfold addGroup
    by_cases hx : gs.any (fun g => decide (g.1 = key x)) = true
    · rw [if_pos hx]
      have hmem : key x ∈ gs.map Prod.fst := by
        obtain ⟨g, hg, hgk⟩ := List.any_eq_true.mp hx
        exact List.mem_map.mpr ⟨g, hg, (of_decide_eq_true hgk).symm ▸ rfl⟩
      rw [if_pos hmem]
      rw [List.map_map]
      refine List.map_congr_left fun g _ => ?_
      by_cases hg : g.1 = key x <;> simp [Function.comp, hg]
    · rw [if_neg hx]
      have hmem : ¬ key x ∈ gs.map Prod.fst := by
        intro hm
        obtain ⟨g, hg, hgk⟩ := List.mem_map.mp hm
        exact hx (List.any_eq_true.mpr ⟨g, hg, decide_eq_true hgk⟩)
      rw [if_neg hmem]
      simp

/-- With duplicate-free keys, filtering an association list for a present key
yields exactly its entry. -/
theorem filter_key_singleton {β : Type} :
    ∀ (l : List (String × β)) (k : String) (v : β),
      (l.map Prod.fst).Nodup → (k, v) ∈ l →
      l.filter (fun x => x.1 == k) = [(k, v)] := by
  intro l
  induction l with
  | nil => intro k v _ hm; cases hm
  | cons p rest ih =>
    intro k v hnd hm
    simp only [List.map_cons, List.nodup_cons] at hnd
    simp only [List.filter_cons]
    rcases List.mem_cons.mp hm with rfl | hm'
    · simp only [beq_self_eq_true, if_pos]
      congr 1
      rw [List.filter_eq_nil_iff]
      intro x hx hbx
      exact hnd.1 (List.mem_map.mpr ⟨x, hx, (of_decide_eq_true hbx)⟩)
    · have hpk : p.1 ≠ k := by
        intro hpk
        exact hnd.1 (hpk ▸ List.mem_map.mpr ⟨(k, v), hm', rfl⟩)
      rw [if_neg (by simpa using hpk)]
      exact ih k v hnd.2 hm'

/-- With duplicate-free keys, lookup of a present key finds its entry. -/
theorem lookup_eq_of_mem {β : Type} :
    ∀ (l : List (String × β)) (k : String) (v : β),
      (l.map Prod.fst).Nodup → (k, v) ∈ l → l.lookup k = some v := by
  intro l
  induction l with
  | nil => intro k v _ hm; cases hm
  | cons p rest ih =>
    intro k v hnd hm
    simp only [List.map_cons, List.nodup_cons] at hnd
    rcases List.mem_cons.mp hm with rfl | hm'
    · simp [List.lookup]
    · have hpk : p.1 ≠ k := by
        intro hpk
        exact hnd.1 (hpk ▸ List.mem_map.mpr ⟨(k, v), hm', rfl⟩)
      obtain ⟨p1, p2⟩ := p
      have hb : (k == p1) = false :=
        beq_eq_false_iff_ne.mpr fun he => hpk he.symm
      simp only [List.lookup, hb]
      exact ih k v hnd.2 hm'

/-- Appending the same string on the right preserves boolean equality. -/
theorem beq_append_right (a b c : String) : (a ++ c == b ++ c) = (a == b) := by
  by_cases h : a = b
  · subst h; simp
  · have h2 : ¬ a ++ c = b ++ c := by
      intro hc
      apply h
      have hd : (a ++ c).data = (b ++ c).data := by rw [hc]
      rw [String.data_append, String.data_append] at hd
      exact congrArg String.mk (List.append_cancel_right hd)
    simp [h, h2]

/-! ### Order facts for the sorts used by the renderer. -/

/-- Unfolding of the head comparison of `charsLt`. -/
theorem charsLt_cons_iff (c d : Char) (cs ds : List Char) :
    charsLt (c :: cs) (d :: ds) = true ↔
      c.toNat < d.toNat ∨ (c = d ∧ charsLt cs ds = true) := by
  simp only [charsLt]
  by_cases h1 : c.toNat < d.toNat
  · simp [h1]
  · by_cases h2 : c = d <;> simp [h1, h2]

/-- `charsLt` is irreflexive. -/
theorem charsLt_irrefl (as : List Char) : charsLt as as = false := by
  induction as with
  | nil => rfl
  | cons c cs ih => simp [charsLt, ih]

/-- `charsLt` is transitive. -/
theorem charsLt_trans :
    ∀ (as bs cs : List Char), charsLt as bs = true → charsLt bs cs = true →
      charsLt as cs = true := by
  intro as
  induction as with
  | nil =>
    intro bs cs h1 h2
    cases bs with
    | nil => exact h2
    | cons b bs' =>
      cases cs with
      | nil => simp [charsLt] at h2
      | cons c cs' => rfl
  | cons a as' ih =>
    intro bs cs h1 h2
    cases bs with
    | nil => simp [charsLt] at h1
    | cons b bs' =>
      cases cs with
      | nil => simp [charsLt] at h2
      | cons c cs' =>
        rw [charsLt_cons_iff] at h1 h2 ⊢
        rcases h1 with h1 | ⟨hab, h1'⟩ <;> rcases h2 with h2 | ⟨hbc, h2'⟩
        · exact .inl (h1.trans h2)
        · exact .inl (by rw [← hbc]; exact h1)
        · exact .inl (by rw [hab]; exact h2)
        · exact .inr ⟨hab.trans hbc, ih bs' cs' h1' h2'⟩

/-- Characters with equal code points are equal. -/
theorem char_eq_of_toNat_eq {c d : Char} (h : c.toNat = d.toNat) : c = d :=
  Char.ext (UInt32.ext h)

/-- `charsLt` is a linear comparison. -/
theorem charsLt_total (as : List Char) :
    ∀ bs, charsLt as bs = true ∨ as = bs ∨ charsLt bs as = true := by
  induction as with
  | nil =>
    intro bs
    cases bs with
    | nil => exact .inr (.inl rfl)
    | cons b bs' => exact .inl rfl
  | cons a as' ih =>
    intro bs
    cases bs with
    | nil => exact .inr (.inr rfl)
    | cons b bs' =>
      rcases Nat.lt_trichotomy a.toNat b.toNat with h | h | h
      · exact .inl ((charsLt_cons_iff _ _ _ _).mpr (.inl h))
      · have hab : a = b := char_eq_of_toNat_eq h
        rcases ih bs' with h' | h' | h'
        · exact .inl ((charsLt_cons_iff _ _ _ _).mpr (.inr ⟨hab, h'⟩))
        · exact .inr (.inl (by rw [hab, h']))
        · exact .inr (.inr ((charsLt_cons_iff _ _ _ _).mpr (.inr ⟨hab.symm, h'⟩)))
      · exact .inr (.inr ((charsLt_cons_iff _ _ _ _).mpr (.inl h)))

/-- `pyLt` is transitive. -/
theorem pyLt_trans {a b c : String} (h1 : pyLt a b = true)
    (h2 : pyLt b c = true) : pyLt a c = true :=
  charsLt_trans _ _ _ h1 h2

/-- `pyLt` is irreflexive. -/
theorem pyLt_irrefl (a : String) : pyLt a a = false :=
  charsLt_irrefl _

/-- `pyLt` is asymmetric. -/
theorem pyLt_asymm {a b : String} (h1 : pyLt a b = true)
    (h2 : pyLt b a = true) : False := by
  have := pyLt_trans h1 h2
  rw [pyLt_irrefl] at this
  cases this

/-- Strings compare linearly under `pyLt`. -/
theorem pyLt_trichotomy (a b : String) :
    pyLt a b = true ∨ a = b ∨ pyLt b a = true := by
  rcases charsLt_total a.data b.data with h | h | h
  · exact .inl h
  · exact .inr (.inl (congrArg String.mk h))
  · exact .inr (.inr h)

/-- `pyLe` is reflexive. -/
theorem pyLe_refl (a : String) : pyLe a a = true := by simp [pyLe]

/-- `pyLe` is total. -/
theorem pyLe_total (a b : String) : pyLe a b = true ∨ pyLe b a = true := by
  rcases pyLt_trichotomy a b with h | rfl | h
  · exact .inl (by simp [pyLe, h])
  · exact .inl (pyLe_refl a)
  · exact .inr (by simp [pyLe, h])

/-- `pyLe` is transitive. -/
theorem pyLe_trans {a b c : String} (h1 : pyLe a b = true)
    (h2 : pyLe b c = true) : pyLe a c = true := by
  simp only [pyLe, Bool.or_eq_true, beq_iff_eq] at *
  rcases h1 with h1 | rfl
  · rcases h2 with h2 | rfl
    · exact .inl (pyLt_trans h1 h2)
    · exact .inl h1
  · exact h2

/-- `pyLe` is antisymmetric. -/
theorem pyLe_antisymm {a b : String} (h1 : pyLe a b = true)
    (h2 : pyLe b a = true) : a = b := by
  simp only [pyLe, Bool.or_eq_true, beq_iff_eq] at h1 h2
  rcases h1 with h1 | rfl
  · rcases h2 with h2 | rfl
    · exact (pyLt_asymm h1 h2).elim
    · rfl
  · rfl

instance : IsTotal String (fun a b => pyLe a b = true) := ⟨pyLe_total⟩

instance : IsTrans String (fun a b => pyLe a b = true) :=
  ⟨fun _ _ _ => pyLe_trans⟩

instance : IsAntisymm String (fun a b => pyLe a b = true) :=
  ⟨fun _ _ => pyLe_antisymm⟩

instance : IsTotal (String × String) keyLe :=
  ⟨fun a b => by
    unfold keyLe
    rcases pyLt_trichotomy a.1 b.1 with h | h | h
    · exact .inl (.inl h)
    · rcases pyLe_total a.2 b.2 with h2 | h2
      · exact .inl (.inr ⟨h, h2⟩)
      · exact .inr (.inr ⟨h.symm, h2⟩)
    · exact .inr (.inl h)⟩

instance : IsTrans (String × String) keyLe :=
  ⟨fun a b c hab hbc => by
    unfold keyLe at *
    rcases hab with h1 | ⟨h1, h1'⟩
    · rcases hbc with h2 | ⟨h2, _⟩
      · exact .inl (pyLt_trans h1 h2)
      · exact .inl (by rw [← h2]; exact h1)
    · rcases hbc with h2 | ⟨h2, h2'⟩
      · exact .inl (by rw [h1]; exact h2)
      · exact .inr ⟨h1.trans h2, pyLe_trans h1' h2'⟩⟩

/-- `sortedStrings` sorts. -/
theorem sortedStrings_sorted (l : List String) :
    List.Sorted (fun a b => pyLe a b = true) (sortedStrings l) :=
  List.sorted_insertionSort _ l

/-- `sortedStrings` permutes. -/
theorem sortedStrings_perm (l : List String) : (sortedStrings l).Perm l :=
  List.perm_insertionSort _ l

/-- Sorted deduplication is invariant under permutation of the input. -/
theorem sortedDedup_perm {l l' : List String} (h : l.Perm l') :
    sortedStrings (pyDedupFirst l) = sortedStrings (pyDedupFirst l') := by
  exact List.eq_of_perm_of_sorted
    (((sortedStrings_perm _).trans (pyDedupFirst_perm h)).trans
      (sortedStrings_perm _).symm)
    (sortedStrings_sorted _) (sortedStrings_sorted _)

/-- The job columns are sorted. -/
theorem jobsOf_sorted (results : List CaseResult) :
    List.Sorted (fun a b => pyLe a b = true) (jobsOf results) :=
  sortedStrings_sorted _

/-- The job columns are duplicate-free. -/
theorem jobsOf_nodup (results : List CaseResult) : (jobsOf results).Nodup :=
  ((sortedStrings_perm _).symm).nodup (pyDedupFirst_nodup _)

/-- Membership in the job columns. -/
theorem jobsOf_mem (results : List CaseResult) (j : String) :
    j ∈ jobsOf results ↔ j ∈ results.map CaseResult.job := by
  unfold jobsOf
  rw [(sortedStrings_perm _).mem_iff, pyDedupFirst_mem]

/-- The job columns are invariant under permutation of the results. -/
theorem jobsOf_perm {results results' : List CaseResult}
    (h : results.Perm results') : jobsOf results = jobsOf results' :=
  sortedDedup_perm (h.map _)

/-- Structure of a successful `job_categories` computation: keyed by the
sorted jobs, each value the classification of its key. -/
theorem jobCategories_ok {results : List CaseResult}
    {cats : List (String × String)} (h : jobCategories results = .ok cats) :
    cats.map Prod.fst = jobsOf results ∧
    ∀ p ∈ cats, jobCategory results p.1 = .ok p.2 := by
  have h2 := mapE_forall2 h
  constructor
  · have hmap : cats.map Prod.fst = (jobsOf results).map (fun j => j) := by
      refine forall2_map_eq h2 ?_
      intro j p hR
      cases hc : jobCategory results j with
      | error e => rw [hc] at hR; cases hR
      | ok c => rw [hc] at hR; cases hR; rfl
    simpa using hmap
  · intro p hp
    obtain ⟨j, _, hR⟩ := forall2_mem_right h2 p hp
    cases hc : jobCategory results j with
    | error e => rw [hc] at hR; cases hR
    | ok c => rw [hc] at hR; cases hR; exact hc

/-- A job classified while its server scan holds is not a client job. -/
theorem jobCategory_server_ne_client {results : List CaseResult} {j c : String}
    (h : jobCategory results j = .ok c) (hs : isServerJob results j = true) :
    c ≠ "client" := by
  unfold jobCategory at h
  rw [hs] at h
  cases hcl : isClientJob results j <;> rw [hcl] at h
  · rw [if_neg (by decide)] at h
    by_cases hsuf : servicesSuffix j = true
    · rw [if_pos hsuf, if_pos rfl] at h
      cases h; decide
    · rw [if_neg hsuf, if_pos rfl] at h
      cases h; decide
  · rw [if_pos rfl] at h
    cases h

/-- A job classified while its server scan fails is a client job. -/
theorem jobCategory_client {results : List CaseResult} {j c : String}
    (h : jobCategory results j = .ok c) (hs : isServerJob results j = false) :
    c = "client" := by
  unfold jobCategory at h
  rw [hs] at h
  cases hcl : isClientJob results j <;> rw [hcl] at h
  · rw [if_pos rfl] at h
    cases h
  · rw [if_neg (by decide)] at h
    by_cases hsuf : servicesSuffix j = true
    · rw [if_pos hsuf, if_neg (by decide)] at h
      cases h
    · rw [if_neg hsuf, if_neg (by decide), if_pos rfl] at h
      cases h
      rfl

/-- `sortByKey` sorts by the key. -/
theorem sortByKey_sorted {β : Type} (items : List (String × β)) :
    List.Sorted (fun x y => pyLe x.1 y.1 = true) (sortByKey items) := by
  haveI : IsTotal (String × β) (fun x y : String × β => pyLe x.1 y.1 = true) :=
    ⟨fun a b => pyLe_total a.1 b.1⟩
  haveI : IsTrans (String × β) (fun x y : String × β => pyLe x.1 y.1 = true) :=
    ⟨fun _ _ _ h1 h2 => pyLe_trans h1 h2⟩
  exact List.sorted_insertionSort _ _

/-- `sortByKey` permutes. -/
theorem sortByKey_perm {β : Type} (items : List (String × β)) :
    (sortByKey items).Perm items :=
  List.perm_insertionSort _ _

/-- `sortByKey2` sorts by the key pair. -/
theorem sortByKey2_sorted {β : Type} (items : List ((String × String) × β)) :
    List.Sorted (fun x y => keyLe x.1 y.1) (sortByKey2 items) := by
  haveI : IsTotal ((String × String) × β)
      (fun x y : (String × String) × β => keyLe x.1 y.1) :=
    ⟨fun a b => IsTotal.total (r := keyLe) a.1 b.1⟩
  haveI : IsTrans ((String × String) × β)
      (fun x y : (String × String) × β => keyLe x.1 y.1) :=
    ⟨fun _ _ _ h1 h2 => IsTrans.trans (r := keyLe) _ _ _ h1 h2⟩
  exact List.sorted_insertionSort _ _

/-- `sortByKey2` permutes. -/
theorem sortByKey2_perm {β : Type} (items : List ((String × String) × β)) :
    (sortByKey2 items).Perm items :=
  List.perm_insertionSort _ _

/-- A successfully built row is named after its test group. -/
theorem buildRow_ok {jobs : List String} {qualified : String}
    {t : String × List CaseResult} {row : Row}
    (h : buildRow jobs qualified t = .ok row) : row.test_name = t.1 := by
  simp only [buildRow] at h
  cases hm : mapE (cellForJob (group_by t.2 (·.job))) jobs with
  | error e => rw [hm] at h; cases h
  | ok cells => rw [hm] at h; cases h; rfl

/-- A successfully built class group carries the group key and sorted row
names. -/
theorem buildSection_ok {jobs : List String} {multiple : Bool}
    {g : (String × String) × List CaseResult} {sec : TableSection}
    (h : buildSection jobs multiple g = .ok sec) :
    sec.module_name = g.1.1 ∧ sec.class_name = g.1.2 ∧
    List.Sorted (fun a b => pyLe a b = true) (sec.rows.map Row.test_name) := by
  simp only [buildSection] at h
  cases hm : mapE
      (buildRow jobs (if multiple then g.1.1 ++ "." ++ g.1.2 else g.1.2))
      (sortByKey (group_by g.2 (·.test_name))) with
  | error e => rw [hm] at h; cases h
  | ok rows =>
    rw [hm] at h
    cases h
    refine ⟨rfl, rfl, ?_⟩
    show List.Sorted (fun a b => pyLe a b = true) (rows.map Row.test_name)
    have hmap : rows.map Row.test_name =
        (sortByKey (group_by g.2 (·.test_name))).map Prod.fst :=
      forall2_map_eq (mapE_forall2 hm) fun _ _ hR => buildRow_ok hR
    rw [hmap]
    exact List.pairwise_map.mpr (sortByKey_sorted _)

/-- A successfully built matrix carries the given columns, sorted group keys
and sorted row names. -/
theorem buildTestTable_ok {jobs : List String} {results : List CaseResult}
    {table : Table} (h : buildTestTable jobs results = .ok table) :
    table.jobs = jobs ∧
    List.Sorted keyLe (table.sections.map fun s => (s.module_name, s.class_name)) ∧
    ∀ sec ∈ table.sections,
      List.Sorted (fun a b => pyLe a b = true) (sec.rows.map Row.test_name) := by
  simp only [buildTestTable] at h
  cases hm : mapE
      (buildSection jobs ((pyDedupFirst (results.map (·.module_name))).length > 1))
      (sortByKey2 (group_by results fun r => (r.module_name, r.class_name))) with
  | error e => rw [hm] at h; cases h
  | ok sections =>
    rw [hm] at h
    cases h
    refine ⟨rfl, ?_, ?_⟩
    · show List.Sorted keyLe
        (sections.map fun s => (s.module_name, s.class_name))
      have hmap : sections.map (fun s => (s.module_name, s.class_name)) =
          (sortByKey2 (group_by results fun r =>
            (r.module_name, r.class_name))).map Prod.fst := by
        refine forall2_map_eq (mapE_forall2 hm) fun g sec hR => ?_
        obtain ⟨h1, h2, _⟩ := buildSection_ok hR
        rw [h1, h2]
      rw [hmap]
      exact List.pairwise_map.mpr (sortByKey2_sorted _)
    · intro sec hsec
      obtain ⟨g, _, hR⟩ := forall2_mem_right (mapE_forall2 hm) sec hsec
      exact (buildSection_ok hR).2.2

/-- Unfolding of a successfully built module page. -/
theorem buildModulePage_ok {results : List CaseResult}
    {cats : List (String × String)} {jobs : List String}
    {m : String × List CaseResult} {page : Page}
    (h : buildModulePage results cats jobs m = .ok page) :
    page.ptype = "module" ∧ page.title = m.1 ∧
    page.fileName = m.1 ++ ".xhtml" ∧
    buildTestTable
      (jobs.filter fun j =>
        (pyDedupFirst ((results.filter fun r =>
          r.module_name == m.1 && !r.skipped).map fun r =>
            catOf cats r.job)).contains (catOf cats j))
      m.2 = .ok page.table := by
  simp only [buildModulePage] at h
  cases hbt : buildTestTable
      (jobs.filter fun j =>
        (pyDedupFirst ((results.filter fun r =>
          r.module_name == m.1 && !r.skipped).map fun r =>
            catOf cats r.job)).contains (catOf cats j)) m.2 with
  | error e => rw [hbt] at h; cases h
  | ok table => rw [hbt] at h; cases h; exact ⟨rfl, rfl, rfl, rfl⟩

/-- Unfolding of a successfully built job page. -/
theorem buildJobPage_ok {results : List CaseResult} {job : String}
    {page : Page} (h : buildJobPage results job = .ok page) :
    page.ptype = "job" ∧ page.title = job ∧
    page.fileName = job ++ ".xhtml" ∧
    buildTestTable
      (jobsOf (results.filter fun r =>
        r.job == job || pyStartsWith r.job (job ++ "-")))
      (results.filter fun r =>
        r.job == job || pyStartsWith r.job (job ++ "-")) = .ok page.table := by
  simp only [buildJobPage] at h
  cases hbt : buildTestTable
      (jobsOf (results.filter fun r =>
        r.job == job || pyStartsWith r.job (job ++ "-")))
      (results.filter fun r =>
        r.job == job || pyStartsWith r.job (job ++ "-")) with
  | error e => rw [hbt] at h; cases h
  | ok table => rw [hbt] at h; cases h; exact ⟨rfl, rfl, rfl, rfl⟩

/-- Unfolding of a successful `write_html_pages` run: the classification, the
module pages (over the sorted module groups) and the job pages (over the
server-then-client job list). -/
theorem writeHtmlPages_ok {results : List CaseResult} {pages : List Page}
    (h : writeHtmlPages results = .ok pages) :
    ∃ cats modPages jobPages,
      jobCategories results = .ok cats ∧
      pages = modPages ++ jobPages ∧
      List.Forall₂
        (fun m p => buildModulePage results cats (jobsOf results) m = .ok p)
        (sortByKey (group_by results (·.module_name))) modPages ∧
      List.Forall₂ (fun (jc : String × String) p =>
          buildJobPage results jc.1 = .ok p)
        ((["server", "client"].map fun category =>
          cats.filter fun jc => jc.2 == category).flatten) jobPages := by
  simp only [writeHtmlPages] at h
  cases hc : jobCategories results with
  | error e => rw [hc] at h; cases h
  | ok cats =>
    rw [hc] at h
    dsimp only at h
    cases hm : mapE (buildModulePage results cats (jobsOf results))
        (sortByKey (group_by results (·.module_name))) with
    | error e => rw [hm] at h; cases h
    | ok modPages =>
      rw [hm] at h
      dsimp only at h
      cases hj : mapE (fun jc : String × String => buildJobPage results jc.1)
          ((["server", "client"].map fun category =>
            cats.filter fun jc => jc.2 == category).flatten) with
      | error e => rw [hj] at h; cases h
      | ok jobPages =>
        rw [hj] at h
        cases h
        exact ⟨cats, modPages, jobPages, rfl, rfl, mapE_forall2 hm,
          mapE_forall2 hj⟩

/-- A successful classification implies the two membership scans disagree. -/
theorem jobCategory_ok_ne {results : List CaseResult} {j c : String}
    (h : jobCategory results j = .ok c) :
    isClientJob results j ≠ isServerJob results j := by
  intro he
  unfold jobCategory at h
  rw [if_pos he] at h
  cases h

/-- Sorting an association list by key commutes with projecting the keys. -/
theorem map_fst_sortByKey {β : Type} (items : List (String × β)) :
    (sortByKey items).map Prod.fst = sortedStrings (items.map Prod.fst) := by
  refine List.eq_of_perm_of_sorted (r := fun a b => pyLe a b = true) ?_ ?_ ?_
  · exact ((sortByKey_perm items).map _).trans (sortedStrings_perm _).symm
  · exact List.pairwise_map.mpr (sortByKey_sorted items)
  · exact sortedStrings_sorted _

/-! ## Claim theorems -/

/-- Claim C1, counterexample: on a job whose client-suite results are all
skipped while a server-suite result is not, the source classifier aborts,
whereas the classifier described by the claim (which looks at non-skipped
results only) would succeed and classify the job as a server job.  Hence the
derived category is not computed from non-skipped results only, and this
scenario is not an instance of the claimed both-or-neither abort
condition. -/
theorem C1_counterexample :
    (jobCategory resultsSkippedClient "j").isOk = false ∧
    jobCategoryClaim resultsSkippedClient "j" = .ok "server" := by
  constructor
  · rfl
  · rfl

/-- Claim C1, amended: the derived category of a job is computed from all of
its results, skipped ones included; the classification succeeds exactly when
precisely one of the two membership scans (over all results) holds, and -- for
a job name carrying a services suffix -- the server scan is the one that
holds.  Otherwise the run aborts. -/
theorem C1_amended (results : List CaseResult) (job : String) :
    (jobCategory results job).isOk = true ↔
      (isClientJob results job ≠ isServerJob results job ∧
       (servicesSuffix job = true → isServerJob results job = true)) := by
  cases h1 : isClientJob results job <;>
    cases h2 : isServerJob results job <;>
      cases h3 : servicesSuffix job <;>
        simp [jobCategory, h1, h2, h3, Except.isOk, Except.toBool]

/-- Claim C2, counterexample: a 55-character test name whose bracketed
segment is followed by a stray character.  The claim requires a fatal
cannot-shorten abort (the bracketed segment is not a suffix), yet the source
succeeds; moreover the stray tail is dropped, so more than the bracketed
portion is replaced. -/
theorem C2_counterexample :
    outputFilename strayTailResult =
      some ("j_m.C." ++ String.mk (List.replicate 51 'a') ++
        "[ndTkYSaMgDT1yFZOFVxnpg==].txt") := by
  decide

/-- Claim C2, amended: test names within the length limit and the allowed
character set are used verbatim.  A long or invalid name is matched against
the identifier-bracket pattern anywhere at the start of the name (trailing
characters after the last reachable closing bracket are dropped): on a match
the output filename is the identifier, then the bracketed urlsafe padded
base64 md5 of the captured parameters; with no match the computation is
fatal. -/
theorem C2_amended (r : CaseResult) :
    (¬ (r.test_name.length > 50 ∨
        r.test_name.data.any (· ∈ NETLIFY_CHAR_BLACKLIST) = true) →
      outputFilename r = some (r.job ++ "_" ++ r.module_name ++ "." ++
        r.class_name ++ "." ++ r.test_name ++ ".txt")) ∧
    ((r.test_name.length > 50 ∨
        r.test_name.data.any (· ∈ NETLIFY_CHAR_BLACKLIST) = true) →
      (∀ fn ps, shortenMatch r.test_name = some (fn, ps) →
        (∃ suffix, r.test_name.data = fn.data ++ '[' :: ps.data ++ ']' :: suffix) ∧
        fn.data.all isWordChar = true ∧ fn.data ≠ [] ∧
        outputFilename r = some (r.job ++ "_" ++ r.module_name ++ "." ++
          r.class_name ++ "." ++ (fn ++ "[" ++ md5sum ps ++ "]") ++ ".txt")) ∧
      (shortenMatch r.test_name = none → outputFilename r = none)) := by
  constructor
  · intro h
    simp only [outputFilename]
    rw [if_neg h]
    rfl
  · intro h
    constructor
    · intro fn ps hs
      obtain ⟨hdec, hword, hne⟩ := shortenMatch_eq_some hs
      refine ⟨hdec, hword, hne, ?_⟩
      simp only [outputFilename]
      rw [if_pos h, hs]
      rfl
    · intro hs
      simp only [outputFilename]
      rw [if_pos h, hs]
      rfl

/-- Claim C2, witness: the scenario test name -- an identifier and 60
bracketed characters -- hashes the parameters and keeps the identifier. -/
theorem C2_witness :
    (longParamResult.test_name.length > 50 ∨
      longParamResult.test_name.data.any (· ∈ NETLIFY_CHAR_BLACKLIST) = true) ∧
    outputFilename longParamResult =
      some "j_m.C.test_long_one[PLVGWn4zuQ4lDo4kp2TmWg==].txt" := by
  refine ⟨by decide, ?_⟩
  have h := ((C2_amended longParamResult).2 (by decide)).1 "test_long_one"
    (String.mk (List.replicate 60 'b')) (by decide)
  rw [h.2.2.2]
  decide

/-- Claim C4, counterexample: a job of category server-with-services sits in
the classified job set yet the pipeline produces no page for it (the job-page
loop covers only the server and client categories). -/
theorem C4_counterexample :
    jobCategories servicesOnlyResults = .ok [("x-anope", "server-with-services")] ∧
    (writeHtmlPages servicesOnlyResults).map (fun ps => ps.map Page.fileName) =
      .ok ["irctest.server_tests.a.xhtml"] := by
  exact ⟨rfl, rfl⟩

/-- Claim C4, amended: for every job whose derived category is server or
client (services-category jobs get no page of their own), the pipeline
produces exactly one job page named after the job, and the results rendered
into its matrix are exactly those whose job string equals the page's job or
starts with the page's job followed by a hyphen, with no further
filtering. -/
theorem C4_amended (results : List CaseResult) (pages : List Page)
    (cats : List (String × String)) (job cat : String)
    (h : writeHtmlPages results = .ok pages)
    (hcats : jobCategories results = .ok cats)
    (hmem : (job, cat) ∈ cats) (hcat : cat = "server" ∨ cat = "client") :
    ∃ table,
      pages.filter (fun p => p.ptype == "job" && p.fileName == job ++ ".xhtml") =
        [{ ptype := "job", title := job, fileName := job ++ ".xhtml",
           table := table }] ∧
      buildTestTable
        (jobsOf (results.filter fun r =>
          r.job == job || pyStartsWith r.job (job ++ "-")))
        (results.filter fun r =>
          r.job == job || pyStartsWith r.job (job ++ "-")) = .ok table := by
  obtain ⟨cats', modPages, jobPages, hc', hpg, hF2m, hF2j⟩ := writeHtmlPages_ok h
  rw [hcats] at hc'
  cases hc'
  subst hpg
  have hkeys := jobCategories_ok hcats
  have hnd : (cats.map Prod.fst).Nodup := by
    rw [hkeys.1]; exact jobsOf_nodup results
  have hflt : cats.filter (fun jc => jc.1 == job) = [(job, cat)] :=
    filter_key_singleton cats job cat hnd hmem
  have hsplit : ∀ c : String,
      cats.filter (fun a => a.1 == job && a.2 == c) =
        ((cats.filter fun jc => jc.1 == job).filter fun jc => jc.2 == c) := by
    intro c
    rw [List.filter_filter]
    exact (List.filter_congr fun a _ => Bool.and_comm _ _).symm
  have hJL : ((["server", "client"].map fun category =>
      cats.filter fun jc => jc.2 == category).flatten).filter
        (fun jc => jc.1 == job) = [(job, cat)] := by
    rw [List.map_cons, List.map_cons, List.map_nil, List.flatten_cons,
      List.flatten_cons, List.flatten_nil, List.append_nil,
      List.filter_append, List.filter_filter, List.filter_filter]
    rw [show (fun a : String × String => (a.1 == job) && (a.2 == "server")) =
        (fun a : String × String => a.1 == job && a.2 == "server") from rfl]
    rw [hsplit "server", hsplit "client", hflt]
    rcases hcat with rfl | rfl <;> rfl
  have hcorr : ∀ (jc : String × String) (p : Page),
      buildJobPage results jc.1 = .ok p →
      (fun jc : String × String => jc.1 == job) jc =
        (fun p : Page => p.ptype == "job" && p.fileName == job ++ ".xhtml") p := by
    intro jc p hR
    obtain ⟨hpt, _, hfn, _⟩ := buildJobPage_ok hR
    show (jc.1 == job) = (p.ptype == "job" && p.fileName == job ++ ".xhtml")
    rw [hpt, hfn, beq_append_right]
    simp
  have hF2f := forall2_filter hF2j hcorr
  rw [hJL] at hF2f
  rcases List.forall₂_cons_left_iff.mp hF2f with ⟨p, rest, hR, hrest, heq⟩
  have hrest0 : rest = [] := List.forall₂_nil_left_iff.mp hrest
  obtain ⟨hpt, hti, hfn, hbt⟩ := buildJobPage_ok hR
  refine ⟨p.table, ?_, hbt⟩
  rw [List.filter_append]
  have hmodnil : modPages.filter
      (fun p => p.ptype == "job" && p.fileName == job ++ ".xhtml") = [] := by
    rw [List.filter_eq_nil_iff]
    intro q hq
    obtain ⟨m, _, hRm⟩ := forall2_mem_right hF2m q hq
    obtain ⟨hq1, _, _, _⟩ := buildModulePage_ok hRm
    simp [hq1]
  rw [hmodnil, heq, hrest0]
  obtain ⟨pt, ti, fn, tb⟩ := p
  dsimp only at hpt hti hfn ⊢
  subst hpt hti hfn
  rfl

/-- Claim C4, witness: the single server job of `srvResults` gets exactly one
page with the expected matrix. -/
theorem C4_witness :
    writeHtmlPages srvResults = .ok srvPages ∧
    jobCategories srvResults = .ok srvCats ∧
    ("sjob", "server") ∈ srvCats ∧
    srvPages.filter
        (fun p => p.ptype == "job" && p.fileName == "sjob" ++ ".xhtml") =
      [{ ptype := "job", title := "sjob", fileName := "sjob" ++ ".xhtml",
         table := srvTable }] := by
  refine ⟨rfl, rfl, by decide, ?_⟩
  obtain ⟨table, hfil, hbt⟩ := C4_amended srvResults srvPages srvCats "sjob"
    "server" rfl rfl (by decide) (.inl rfl)
  have h2 : Except.ok (ε := String) srvTable = .ok table := by
    rw [← hbt]; rfl
  cases h2
  exact hfil

/-- Claim C5, counterexample: a skipped result whose type field is absent
renders with marker text a question mark, not the claimed marker s (and not
X); the type field also cannot be overriding anything here since it is
absent. -/
theorem C5_counterexample :
    renderCell (mkR "m" "C" "t" "j" true true none) =
      .ok { cls := "skipped", text := "?", link := none, title := none } ∧
    ("?" : String) ≠ "s" ∧ ("?" : String) ≠ "X" := by
  refine ⟨rfl, by decide, by decide⟩

/-- Claim C5, amended: per-cell classification precedence is deselected (no
result, marker d) over skipped over success (marker point) over failure
(marker f).  For a skipped result the marker is s exactly when the type is
pytest.skip, X with the expected-failure style exactly when it is
pytest.xfail, the literal type text for any other non-empty type, and a
question mark when the type is absent or empty; for success and failure a
non-empty type overrides the default marker. -/
theorem C5_amended (byJob : List (String × List CaseResult)) (j : String)
    (cell : Cell) (h : cellForJob byJob j = .ok cell) :
    (byJob.lookup j = none → cell = deselectedCell) ∧
    (∀ r, byJob.lookup j = some [r] →
      (r.skipped = true →
        (r.type = some "pytest.skip" → cell.cls = "skipped" ∧ cell.text = "s") ∧
        (r.type = some "pytest.xfail" →
          cell.cls = "expected-failure" ∧ cell.text = "X") ∧
        ((r.type = none ∨ r.type = some "") →
          cell.cls = "skipped" ∧ cell.text = "?") ∧
        (∀ t, r.type = some t → t ≠ "" → t ≠ "pytest.skip" →
          t ≠ "pytest.xfail" → cell.cls = "skipped" ∧ cell.text = t)) ∧
      (r.skipped = false → r.success = true →
        cell.cls = "success" ∧
        (truthy r.type = false → cell.text = ".") ∧
        (∀ t, r.type = some t → t ≠ "" → cell.text = t)) ∧
      (r.skipped = false → r.success = false →
        cell.cls = "failure" ∧
        (truthy r.type = false → cell.text = "f") ∧
        (∀ t, r.type = some t → t ≠ "" → cell.text = t))) := by
  unfold cellForJob at h
  constructor
  · intro hl
    rw [hl] at h
    cases h
    rfl
  · intro r hl
    rw [hl] at h
    dsimp only at h
    have hcls : cell.cls = (renderClsText r).1 ∧
        cell.text = renderText (renderClsText r).2 := by
      unfold renderCell at h
      by_cases hso : truthy r.system_out = true
      · rw [if_pos hso] at h
        cases hof : outputFilename r with
        | none => rw [hof] at h; cases h
        | some fn => rw [hof] at h; cases h; exact ⟨rfl, rfl⟩
      · rw [if_neg hso] at h
        cases h
        exact ⟨rfl, rfl⟩
    refine ⟨?_, ?_, ?_⟩
    · intro hsk
      refine ⟨?_, ?_, ?_, ?_⟩
      · intro hty
        rw [hcls.1, hcls.2]
        simp [renderClsText, hsk, hty, renderText]
      · intro hty
        rw [hcls.1, hcls.2]
        simp [renderClsText, hsk, hty, renderText]
      · intro hty
        rw [hcls.1, hcls.2]
        rcases hty with hty | hty <;>
          simp [renderClsText, hsk, hty, renderText]
      · intro t hty ht1 ht2 ht3
        rw [hcls.1, hcls.2]
        simp [renderClsText, hsk, hty, renderText, ht1, ht2, ht3]
    · intro hsk hsu
      rw [hcls.1, hcls.2]
      refine ⟨by simp [renderClsText, hsk, hsu], ?_, ?_⟩
      · intro hty
        simp [renderClsText, hsk, hsu, hty, renderText]
      · intro t hty ht1
        have htr : truthy r.type = true := by simp [hty, truthy, ht1]
        simp [renderClsText, hsk, hsu, htr, hty, renderText, ht1, truthy]
    · intro hsk hsu
      rw [hcls.1, hcls.2]
      refine ⟨by simp [renderClsText, hsk, hsu], ?_, ?_⟩
      · intro hty
        simp [renderClsText, hsk, hsu, hty, renderText]
      · intro t hty ht1
        have htr : truthy r.type = true := by simp [hty, truthy, ht1]
        simp [renderClsText, hsk, hsu, htr, hty, renderText, ht1, truthy]

/-- Claim C5, witness: an expected-failure variant renders marker X with the
expected-failure style class. -/
theorem C5_witness :
    cellForJob [("j", [xfailResult])] "j" = .ok xfailCell ∧
    xfailCell.cls = "expected-failure" ∧ xfailCell.text = "X" := by
  refine ⟨rfl, ?_, ?_⟩
  · exact (((C5_amended [("j", [xfailResult])] "j" xfailCell rfl).2
      xfailResult rfl).1 rfl).2.1 rfl |>.1
  · exact (((C5_amended [("j", [xfailResult])] "j" xfailCell rfl).2
      xfailResult rfl).1 rfl).2.1 rfl |>.2

/-- Claim C3: for a case element carrying two system-out children with text,
the second is accepted exactly when its text starts with the first text
stripped of trailing whitespace; on acceptance the second text is the one
kept as the result's captured output, otherwise the whole parse aborts. -/
theorem C3 (t1 : String) (t2 : Option String) :
    ((iterJobResults P0 [mkCase [sysOutChild (some t1), sysOutChild t2]]).isOk
        = true ↔
      ∃ s, t2 = some s ∧ pyStartsWith s (pyRstrip t1) = true) ∧
    (∀ s, t2 = some s → pyStartsWith s (pyRstrip t1) = true →
      iterJobResults P0 [mkCase [sysOutChild (some t1), sysOutChild t2]] =
        .ok [{ module_name := "m", class_name := "C", test_name := "t",
               job := "foo-server", success := true, skipped := false,
               system_out := some s, details := none, type := none,
               message := none }]) := by
  have hst1 : stepChild initState (sysOutChild (some t1)) =
      .ok (soState (some t1)) := rfl
  cases t2 with
  | none =>
    have hE : iterJobResults P0 [mkCase [sysOutChild (some t1),
        sysOutChild none]] =
        .error "AttributeError: NoneType has no attribute startswith" := rfl
    constructor
    · rw [hE]
      simp [Except.isOk, Except.toBool]
    · intro s hs
      cases hs
  | some s' =>
    have hstep : stepChild (soState (some t1)) (sysOutChild (some s')) =
        if pyStartsWith s' (pyRstrip t1) = true then .ok (soState (some s'))
        else .error "AssertionError: Duplicate system-out tag" := rfl
    by_cases hp : pyStartsWith s' (pyRstrip t1) = true
    · rw [if_pos hp] at hstep
      have hfold : foldE stepChild initState
          [sysOutChild (some t1), sysOutChild (some s')] =
          .ok (soState (some s')) := by
        simp only [foldE, hst1, hstep]
      have hok : iterJobResults P0 [mkCase [sysOutChild (some t1),
          sysOutChild (some s')]] =
          .ok [{ module_name := "m", class_name := "C", test_name := "t",
                 job := "foo-server", success := true, skipped := false,
                 system_out := some s', details := none, type := none,
                 message := none }] := by
        simp only [iterJobResults, mapE, parseCase, mkCase, hfold]
        rfl
      rw [hok]
      constructor
      · simp only [Except.isOk, Except.toBool, true_iff]
        exact ⟨s', rfl, hp⟩
      · intro s hs hps
        cases hs
        rfl
    · rw [if_neg hp] at hstep
      have hfold : foldE stepChild initState
          [sysOutChild (some t1), sysOutChild (some s')] =
          .error "AssertionError: Duplicate system-out tag" := by
        simp only [foldE, hst1, hstep]
      have hE : iterJobResults P0 [mkCase [sysOutChild (some t1),
          sysOutChild (some s')]] =
          .error "AssertionError: Duplicate system-out tag" := by
        simp only [iterJobResults, mapE, parseCase, mkCase, hfold]
        rfl
      rw [hE]
      constructor
      · simp only [Except.isOk, Except.toBool, Bool.false_eq_true, false_iff]
        rintro ⟨s, hs, hps⟩
        cases hs
        exact hp hps
      · intro s hs hps
        cases hs
        exact absurd hps hp

/-- Claim C3, witness: teardown output extending the stripped first text is
accepted and kept. -/
theorem C3_witness :
    pyStartsWith "abc teardown" (pyRstrip "abc \n") = true ∧
    iterJobResults P0 [mkCase [sysOutChild (some "abc \n"),
      sysOutChild (some "abc teardown")]] =
      .ok [{ module_name := "m", class_name := "C", test_name := "t",
             job := "foo-server", success := true, skipped := false,
             system_out := some "abc teardown", details := none, type := none,
             message := none }] := by
  refine ⟨by decide, ?_⟩
  exact (C3 "abc \n" (some "abc teardown")).2 "abc teardown" rfl (by decide)

/-- Claim C6, counterexample: a record with no named case is parsed without
consulting the path, so a non-matching path does not abort; and the pattern's
two parentheses around the channel tag are each optional on their own, so a
path with an unbalanced opening parenthesis still matches and captures the
job name. -/
theorem C6_counterexample :
    iterJobResults "this path matches nothing" [] = .ok [] ∧
    jobOfPath "this path matches nothing" = none ∧
    jobOfPath "pytest-results_foo_(stable/pytest.xml" = some "foo" := by
  refine ⟨rfl, by decide, by decide⟩

/-- Claim C6, amended: whenever a record containing at least one named case
element is parsed, a path that does not match the pattern aborts parsing
fatally (a record with no named case yields nothing without consulting the
path); every yielded result carries as its job the name captured from the
path; and the scenario path with one passing server-suite case yields job
foo-server, module irctest.server_tests.x, class T, category server and a
success cell with marker point. -/
theorem C6_amended :
    (∀ path cases_, (∃ c ∈ cases_, (c.attrib.lookup "name").isSome = true) →
      jobOfPath path = none → (iterJobResults path cases_).isOk = false) ∧
    (∀ path cases_ results, iterJobResults path cases_ = .ok results →
      ∀ r ∈ results, jobOfPath path = some r.job) ∧
    iterJobResults P0 [serverCase] = .ok [serverResult] ∧
    jobCategory [serverResult] "foo-server" = .ok "server" ∧
    renderCell serverResult =
      .ok { cls := "success", text := ".", link := none, title := none } := by
  exact ⟨iterJobResults_mismatch_error, iterJobResults_ok_job, rfl, rfl, rfl⟩

/-- Claim C6, witness: the abort applies to a concrete unmatchable path with
one named case. -/
theorem C6_witness :
    (∃ c ∈ [serverCase], (c.attrib.lookup "name").isSome = true) ∧
    jobOfPath "some-other-file.xml" = none ∧
    (iterJobResults "some-other-file.xml" [serverCase]).isOk = false := by
  refine ⟨⟨serverCase, List.mem_singleton.mpr rfl, by decide⟩, by decide, ?_⟩
  exact C6_amended.1 "some-other-file.xml" [serverCase]
    ⟨serverCase, List.mem_singleton.mpr rfl, by decide⟩ (by decide)

/-- Claim C7, counterexample: a module whose name carries neither suite
marker can mix client and server columns on its page: with one client job
and one server job both producing non-skipped results in the unmarked module
irctest.extra.m, the run classifies both jobs successfully and the page for
irctest.extra.m offers both as columns. -/
theorem C7_counterexample :
    jobCategories mixedModuleResults =
      .ok [("cjob", "client"), ("sjob", "server")] ∧
    (writeHtmlPages mixedModuleResults).map
        (fun ps => ps.map fun p => (p.ptype, p.title, p.table.jobs)) =
      .ok [("module", "irctest.client_tests.a", ["cjob"]),
           ("module", "irctest.extra.m", ["cjob", "sjob"]),
           ("module", "irctest.server_tests.b", ["sjob"]),
           ("job", "sjob", ["sjob"]),
           ("job", "cjob", ["cjob"])] := by
  exact ⟨by decide, by decide⟩

/-- Claim C7, amended: every module page offers as columns exactly the jobs
whose derived category belongs to the category set of that module's
non-skipped results; a module page whose name carries the server-suite
marker never offers a client-categorized column, and one whose name carries
the client-suite marker offers only client-categorized columns -- but a module
whose name carries neither marker may mix client and server columns. -/
theorem C7_amended (results : List CaseResult) (cats : List (String × String))
    (pages : List Page) (hcats : jobCategories results = .ok cats)
    (h : writeHtmlPages results = .ok pages) :
    ∀ p ∈ pages, p.ptype = "module" →
      (p.table.jobs = (jobsOf results).filter fun j =>
        (pyDedupFirst ((results.filter fun r =>
          r.module_name == p.title && !r.skipped).map fun r =>
            catOf cats r.job)).contains (catOf cats j)) ∧
      (containsSub p.title "server_tests" = true →
        ∀ j ∈ p.table.jobs, catOf cats j ≠ "client") ∧
      (containsSub p.title "client_tests" = true →
        ∀ j ∈ p.table.jobs, catOf cats j = "client") := by
  intro p hp hpt
  obtain ⟨cats', modPages, jobPages, hc', hpg, hF2m, hF2j⟩ :=
    writeHtmlPages_ok h
  rw [hcats] at hc'
  cases hc'
  subst hpg
  have hkeys := jobCategories_ok hcats
  have hnd : (cats.map Prod.fst).Nodup := by
    rw [hkeys.1]; exact jobsOf_nodup results
  rcases List.mem_append.mp hp with hpm | hpj
  swap
  · obtain ⟨jc, _, hRj⟩ := forall2_mem_right hF2j p hpj
    have hq := (buildJobPage_ok hRj).1
    rw [hpt] at hq
    exact absurd hq (by decide)
  obtain ⟨m, _, hRm⟩ := forall2_mem_right hF2m p hpm
  obtain ⟨_, hti, _, hbt⟩ := buildModulePage_ok hRm
  have hjobs := (buildTestTable_ok hbt).1
  have hcol : ∀ j ∈ p.table.jobs, ∃ r ∈ results,
      r.module_name = p.title ∧ catOf cats r.job = catOf cats j := by
    intro j hj
    rw [hjobs] at hj
    have hcond := (List.mem_filter.mp hj).2
    have hmemded : catOf cats j ∈
        pyDedupFirst ((results.filter fun r =>
          r.module_name == m.1 && !r.skipped).map fun r => catOf cats r.job) :=
      List.elem_iff.mp hcond
    rw [pyDedupFirst_mem] at hmemded
    obtain ⟨r, hrf, hrc⟩ := List.mem_map.mp hmemded
    have hrm := List.mem_filter.mp hrf
    refine ⟨r, hrm.1, ?_, hrc⟩
    rw [hti]
    exact eq_of_beq ((Bool.and_eq_true _ _).mp hrm.2).1
  have hcatOf : ∀ r ∈ results, jobCategory results r.job = .ok (catOf cats r.job) := by
    intro r hr
    have hrjob : r.job ∈ cats.map Prod.fst := by
      rw [hkeys.1, jobsOf_mem]
      exact List.mem_map_of_mem _ hr
    obtain ⟨q, hq, hq1⟩ := List.mem_map.mp hrjob
    obtain ⟨q1, q2⟩ := q
    cases hq1
    have hlk : cats.lookup r.job = some q2 :=
      lookup_eq_of_mem cats r.job q2 hnd hq
    have hco : catOf cats r.job = q2 := by unfold catOf; rw [hlk]; rfl
    rw [hco]
    exact hkeys.2 _ hq
  refine ⟨by rw [hti]; exact hjobs, ?_, ?_⟩
  · intro hsrv j hj
    obtain ⟨r, hr, hrm, hrc⟩ := hcol j hj
    have hs : isServerJob results r.job = true := by
      refine List.any_eq_true.mpr ⟨r, hr, ?_⟩
      rw [Bool.and_eq_true]
      exact ⟨by rw [hrm]; exact hsrv, beq_self_eq_true _⟩
    rw [← hrc]
    exact jobCategory_server_ne_client (hcatOf r hr) hs
  · intro hcli j hj
    obtain ⟨r, hr, hrm, hrc⟩ := hcol j hj
    have hc : isClientJob results r.job = true := by
      refine List.any_eq_true.mpr ⟨r, hr, ?_⟩
      rw [Bool.and_eq_true]
      exact ⟨by rw [hrm]; exact hcli, beq_self_eq_true _⟩
    have hs : isServerJob results r.job = false := by
      have hne := jobCategory_ok_ne (hcatOf r hr)
      rw [hc] at hne
      cases hsv : isServerJob results r.job
      · rfl
      · rw [hsv] at hne; exact absurd rfl hne
    rw [← hrc]
    exact jobCategory_client (hcatOf r hr) hs

/-- Claim C7, witness: the server-suite module page of `srvResults` offers no
client-categorized column. -/
theorem C7_witness :
    writeHtmlPages srvResults = .ok srvPages ∧
    containsSub "irctest.server_tests.a" "server_tests" = true ∧
    (∀ j ∈ srvTable.jobs, catOf srvCats j ≠ "client") := by
  refine ⟨rfl, by decide, ?_⟩
  have h := C7_amended srvResults srvCats srvPages rfl rfl
    { ptype := "module", title := "irctest.server_tests.a",
      fileName := "irctest.server_tests.a.xhtml", table := srvTable }
    (by decide) rfl
  exact fun j hj => h.2.1 (by decide) j hj

/-- Claim C8: all orderings of the generated pages come from lexicographic
sorts, never from input order: the module pages appear in sorted module-name
order, the class groups of every matrix are sorted by their (module, class)
pair, the test rows of every group are sorted by test name, the job columns
of every matrix are sorted, and the page-title and column orders depend only
on the multiset of results (any permutation of the input yields the same
orders).  Together with the purely functional pipeline and the
content-determined md5 identifiers this makes two runs on identical inputs
byte-identical. -/
theorem C8 (results : List CaseResult) (pages : List Page)
    (h : writeHtmlPages results = .ok pages) :
    ((pages.filter fun p => p.ptype == "module").map Page.title =
      sortedStrings (pyDedupFirst (results.map (·.module_name)))) ∧
    (∀ p ∈ pages,
      List.Sorted keyLe
        (p.table.sections.map fun s => (s.module_name, s.class_name)) ∧
      (∀ sec ∈ p.table.sections,
        List.Sorted (fun a b => pyLe a b = true) (sec.rows.map Row.test_name)) ∧
      List.Sorted (fun a b => pyLe a b = true) p.table.jobs) ∧
    (∀ results', results.Perm results' →
      jobsOf results' = jobsOf results ∧
      sortedStrings (pyDedupFirst (results'.map (·.module_name))) =
        sortedStrings (pyDedupFirst (results.map (·.module_name)))) := by
  obtain ⟨cats, modPages, jobPages, hcats, hpg, hF2m, hF2j⟩ :=
    writeHtmlPages_ok h
  subst hpg
  refine ⟨?_, ?_, ?_⟩
  · rw [List.filter_append]
    have hjobnil : jobPages.filter (fun p => p.ptype == "module") = [] := by
      rw [List.filter_eq_nil_iff]
      intro q hq
      obtain ⟨jc, _, hRj⟩ := forall2_mem_right hF2j q hq
      simp [(buildJobPage_ok hRj).1]
    have hmodall : modPages.filter (fun p => p.ptype == "module") = modPages := by
      rw [List.filter_eq_self]
      intro q hq
      obtain ⟨m, _, hRm⟩ := forall2_mem_right hF2m q hq
      simp [(buildModulePage_ok hRm).1]
    rw [hjobnil, hmodall, List.append_nil]
    have hmap : modPages.map Page.title =
        (sortByKey (group_by results (·.module_name))).map Prod.fst :=
      forall2_map_eq hF2m fun m p hR => (buildModulePage_ok hR).2.1
    rw [hmap, map_fst_sortByKey, group_by_keys]
  · intro p hp
    rcases List.mem_append.mp hp with hpm | hpj
    · obtain ⟨m, _, hRm⟩ := forall2_mem_right hF2m p hpm
      obtain ⟨_, _, _, hbt⟩ := buildModulePage_ok hRm
      obtain ⟨hjobs, hsec, hrows⟩ := buildTestTable_ok hbt
      refine ⟨hsec, hrows, ?_⟩
      rw [hjobs]
      exact List.Pairwise.filter _ (jobsOf_sorted results)
    · obtain ⟨jc, _, hRj⟩ := forall2_mem_right hF2j p hpj
      obtain ⟨_, _, _, hbt⟩ := buildJobPage_ok hRj
      obtain ⟨hjobs, hsec, hrows⟩ := buildTestTable_ok hbt
      refine ⟨hsec, hrows, ?_⟩
      rw [hjobs]
      exact jobsOf_sorted _
  · intro results' hperm
    exact ⟨(jobsOf_perm hperm).symm, (sortedDedup_perm (hperm.map _)).symm⟩

/-- Claim C8, witness: the pages of the concrete `srvResults` run have their
module-page titles and columns in sorted order. -/
theorem C8_witness :
    writeHtmlPages srvResults = .ok srvPages ∧
    (srvPages.filter fun p => p.ptype == "module").map Page.title =
      sortedStrings (pyDedupFirst (srvResults.map (·.module_name))) ∧
    List.Sorted (fun a b => pyLe a b = true) srvTable.jobs := by
  refine ⟨rfl, (C8 srvResults srvPages rfl).1, ?_⟩
  exact (((C8 srvResults srvPages rfl).2.1
    { ptype := "module", title := "irctest.server_tests.a",
      fileName := "irctest.server_tests.a.xhtml", table := srvTable }
    (by decide))).2.2

/-- Claim C9: a case element with several outcome-classification children
parses without aborting to the same result as a case carrying only the last
such child; in particular a failure child followed by a skipped child yields
a skipped, successful result with no details and only the skipped child's
attributes. -/
theorem C9 (path : String) (attrib : List (String × String))
    (cs : List XmlChild) (c : XmlChild)
    (h : ∀ x ∈ cs, x.tag = "skipped" ∨ x.tag = "failure" ∨ x.tag = "error")
    (hc : c.tag = "skipped" ∨ c.tag = "failure" ∨ c.tag = "error") :
    parseCase path { attrib := attrib, children := cs ++ [c] } =
      parseCase path { attrib := attrib, children := [c] } := by
  have h1 : foldE stepChild initState (cs ++ [c]) =
      foldE stepChild initState [c] := by
    rw [foldE_append]
    obtain ⟨st', hst, hso⟩ := foldE_outcomes cs h initState
    rw [hst]
    simp only [foldE]
    rw [stepChild_outcome_congr st' initState c hc hso]
  unfold parseCase
  dsimp only
  rw [h1]

/-- Claim C9, witness: a failure child followed by a skipped child parses to
a skipped, successful result, the failure's details and attributes
discarded. -/
theorem C9_witness :
    parseCase P0 (mkCase
      [{ tag := "failure", text := some "boom",
         attrib := [("type", "ft"), ("message", "fm")] },
       { tag := "skipped", text := none, attrib := [] }]) =
      parseCase P0 (mkCase [{ tag := "skipped", text := none, attrib := [] }]) ∧
    parseCase P0 (mkCase
      [{ tag := "failure", text := some "boom",
         attrib := [("type", "ft"), ("message", "fm")] },
       { tag := "skipped", text := none, attrib := [] }]) =
      .ok (some { module_name := "m", class_name := "C", test_name := "t",
                  job := "foo-server", success := true, skipped := true,
                  system_out := none, details := none, type := none,
                  message := none }) := by
  constructor
  · exact C9 P0 [("classname", "m.C"), ("name", "t")]
      [{ tag := "failure", text := some "boom",
         attrib := [("type", "ft"), ("message", "fm")] }]
      { tag := "skipped", text := none, attrib := [] }
      (by intro x hx; simp at hx; rw [hx]; right; left; rfl)
      (by left; rfl)
  · rfl

/-- Claim C10: a result whose captured output is the empty string gets an
(empty) output artifact written, yet its matrix cell carries no link to that
artifact. -/
theorem C10 (r : CaseResult) (fn : String) (h1 : r.system_out = some "")
    (h2 : outputFilename r = some fn) :
    writeTestOutputs [r] = .ok [(fn, "")] ∧
    ∃ cell, renderCell r = .ok cell ∧ cell.link = none := by
  constructor
  · unfold writeTestOutputs
    rw [List.filter_cons]
    simp only [h1, Option.isSome_some, List.filter_nil, if_pos]
    unfold mapE
    rw [h2]
    simp [h1, mapE]
  · have hso : truthy r.system_out = false := by rw [h1]; rfl
    refine ⟨{ cls := (renderClsText r).1, text := renderText (renderClsText r).2,
              link := none,
              title := if truthy r.message then r.message else none }, ?_, rfl⟩
    simp [renderCell, hso]

/-- Claim C10, witness: a concrete result with empty captured output. -/
theorem C10_witness :
    (mkR "m" "C" "t" "j" true false (some "")).system_out = some "" ∧
    writeTestOutputs [mkR "m" "C" "t" "j" true false (some "")] =
      .ok [("j_m.C.t.txt", "")] := by
  refine ⟨rfl, ?_⟩
  exact (C10 (mkR "m" "C" "t" "j" true false (some "")) "j_m.C.t.txt" rfl rfl).1

end Irctest
